import Mathlib

/-!
# nyxKernel: the user-space epoll simulation (`src/epoll_demo.c`) and the page-table
walker (`src/user_mmu.c`)

Namespace `Epoll` is a shallow embedding of the epoll demo: the registration list (`rb_root`, a singly
linked list standing in for the red-black tree), the fixed-size ready array
(`ready_list`, `ready_count`, `max_ready`) and the four operations
`my_epoll_create`, `my_epoll_ctl`, `my_epoll_wait`, `my_epoll_activate`.

Conventions of the embedding:
* C `int` values (handles, counts, operation tags, return codes) are `Int`; the only
  arithmetic on them is `ready_count++` below `max_ready`, which cannot overflow.
* `uint32_t` event masks are `Nat`; the code only tests them with bitwise AND and
  copies them, so no wrap-around is involved.
* pointers are replaced by values: the linked list is a `List rb_node_t`, the ready
  array a `List my_epoll_event_t` with one element per slot, the output buffer of
  `my_epoll_wait` a `List my_epoll_event_t` that is returned updated.
* `printf` and `usleep` have no effect on the instance and are dropped.
* the outcome of `malloc` is an explicit boolean argument where the code tests it.

Namespace `Mmu` embeds the two-level page-table walk of `user_mmu.c`; its conventions
are given at its head.
-/

namespace Epoll

/-! ## Data model -/

/-- Mirror of the C struct `my_epoll_event_t`: an event mask and a descriptor. -/
structure my_epoll_event_t where
  events : Nat
  fd : Int
deriving DecidableEq, Repr

/-- Mirror of the C struct `rb_node_t` without its `next` pointer (the list order
plays that part). -/
structure rb_node_t where
  fd : Int
  event : my_epoll_event_t
deriving DecidableEq, Repr

/-- Mirror of the C struct `my_epoll_t`. -/
structure my_epoll_t where
  rb_root : List rb_node_t
  ready_list : List my_epoll_event_t
  ready_count : Int
  max_ready : Int
deriving DecidableEq, Repr

/-- Event bit `MY_EPOLLIN` (0x01). -/
def MY_EPOLLIN : Nat := 0x01

/-- Event bit `MY_EPOLLOUT` (0x02). -/
def MY_EPOLLOUT : Nat := 0x02

/-- Operation tag `MY_EPOLL_CTL_ADD`. -/
def MY_EPOLL_CTL_ADD : Int := 1

/-- Operation tag `MY_EPOLL_CTL_MOD`. -/
def MY_EPOLL_CTL_MOD : Int := 2

/-- Operation tag `MY_EPOLL_CTL_DEL`. -/
def MY_EPOLL_CTL_DEL : Int := 3

/-- The all-zero slot that `memset(…, 0, …)` leaves in the ready array. -/
def zero_event : my_epoll_event_t := { events := 0, fd := 0 }

/-! ## Memory helpers -/

/-- The C call `memcpy(dst, src, n * sizeof(my_epoll_event_t))`: the first `n` slots of
`dst` are overwritten with the first `n` slots of `src`. -/
def memcpy (dst src : List my_epoll_event_t) (n : Nat) : List my_epoll_event_t :=
  src.take n ++ dst.drop n

/-- The C call `memset(dst, 0, n * sizeof(my_epoll_event_t))`: the first `n` slots of
`dst` become zero. -/
def memset_zero (dst : List my_epoll_event_t) (n : Nat) : List my_epoll_event_t :=
  List.replicate n zero_event ++ dst.drop n

/-! ## The list walk shared by `my_epoll_ctl` and `my_epoll_activate` -/

/-- The search loop `while (node) { if (node->fd == fd) break; node = node->next; }`:
the first node whose `fd` field equals `fd`, if any. -/
def find_node : List rb_node_t → Int → Option rb_node_t
  | [], _ => none
  | n :: rest, fd => if n.fd = fd then some n else find_node rest fd

/-- The effect of `node->event = *event` on the node found by the search loop. -/
def set_event : List rb_node_t → Int → my_epoll_event_t → List rb_node_t
  | [], _, _ => []
  | n :: rest, fd, ev =>
    if n.fd = fd then { n with event := ev } :: rest else n :: set_event rest fd ev

/-- The unlinking of the node found by the search loop (`prev->next = node->next` or
`ep->rb_root = node->next`). -/
def unlink_node : List rb_node_t → Int → List rb_node_t
  | [], _ => []
  | n :: rest, fd => if n.fd = fd then rest else n :: unlink_node rest fd

/-! ## Operations -/

/-- The function `my_epoll_create(size)`. `mallocOk` is the outcome of the allocation of
the instance itself (`NULL` is `none`); the ready array is `size` zeroed slots and its
allocation is taken to succeed, which the code does not test. The code has no check on
`size`: for `size = 0` the array has no slot, and for `size < 0` the byte count wraps
around in C, so the embedding is meant for `size ≥ 0`. -/
def my_epoll_create (size : Int) (mallocOk : Bool) : Option my_epoll_t :=
  if !mallocOk then none
  else some
    { rb_root := []
      ready_list := List.replicate size.toNat zero_event
      ready_count := 0
      max_ready := size }

/-- The function `my_epoll_ctl(ep, op, fd, event)` on a non-null instance and a readable
`event`; it returns the instance after the call and the C return value. `mallocOk` is
the outcome of the node allocation in the ADD branch. -/
def my_epoll_ctl (ep : my_epoll_t) (op fd : Int) (event : my_epoll_event_t)
    (mallocOk : Bool) : my_epoll_t × Int :=
  if fd < 0 then (ep, -1)
  else
    let node := find_node ep.rb_root fd
    if op = MY_EPOLL_CTL_ADD then
      match node with
      | some _ => (ep, -1)
      | none =>
        if !mallocOk then (ep, -1)
        else ({ ep with rb_root := ep.rb_root ++ [{ fd := fd, event := event }] }, 0)
    else if op = MY_EPOLL_CTL_MOD then
      match node with
      | none => (ep, -1)
      | some _ => ({ ep with rb_root := set_event ep.rb_root fd event }, 0)
    else if op = MY_EPOLL_CTL_DEL then
      match node with
      | none => (ep, -1)
      | some _ => ({ ep with rb_root := unlink_node ep.rb_root fd }, 0)
    else (ep, -1)

/-- The function `my_epoll_wait(ep, events, maxevents, timeout)` on a non-null instance
and output buffer; it returns the instance after the call, the output buffer after
the call and the C return value. The timeout only delays the call. -/
def my_epoll_wait (ep : my_epoll_t) (events : List my_epoll_event_t)
    (maxevents _timeout : Int) : my_epoll_t × List my_epoll_event_t × Int :=
  if maxevents ≤ 0 then (ep, events, -1)
  else
    let copy_count : Int := if ep.ready_count > maxevents then maxevents else ep.ready_count
    let out := memcpy events ep.ready_list copy_count.toNat
    ({ ep with
        ready_count := 0
        ready_list := memset_zero ep.ready_list ep.max_ready.toNat },
      out, copy_count)

/-- The function `my_epoll_activate(ep, fd, events)` on a non-null instance. -/
def my_epoll_activate (ep : my_epoll_t) (fd : Int) (events : Nat) : my_epoll_t :=
  if fd < 0 ∨ ep.ready_count ≥ ep.max_ready then ep
  else
    match find_node ep.rb_root fd with
    | none => ep
    | some node =>
      if node.event.events &&& events = 0 then ep
      else
        { ep with
            ready_list :=
              ep.ready_list.set ep.ready_count.toNat { events := events, fd := fd }
            ready_count := ep.ready_count + 1 }

/-! ## Observations and call sequences -/

/-- The ready queue of an instance: the first `ready_count` slots of the ready array. -/
def ready_queue (ep : my_epoll_t) : List my_epoll_event_t :=
  ep.ready_list.take ep.ready_count.toNat

/-- The mask registered for a handle, if the handle has an entry. -/
def registered_mask (ep : my_epoll_t) (fd : Int) : Option Nat :=
  (find_node ep.rb_root fd).map (fun n => n.event.events)

/-- One call on an instance, with its arguments. -/
inductive Call where
  | ctl (op fd : Int) (event : my_epoll_event_t) (mallocOk : Bool)
  | activate (fd : Int) (events : Nat)
  | wait (events : List my_epoll_event_t) (maxevents timeout : Int)
deriving DecidableEq, Repr

/-- The instance after one call. -/
def step (ep : my_epoll_t) : Call → my_epoll_t
  | Call.ctl op fd event mallocOk => (my_epoll_ctl ep op fd event mallocOk).1
  | Call.activate fd events => my_epoll_activate ep fd events
  | Call.wait events maxevents timeout => (my_epoll_wait ep events maxevents timeout).1

/-- The instance after a sequence of calls, in order. -/
def run (ep : my_epoll_t) (calls : List Call) : my_epoll_t :=
  calls.foldl step ep

/-- An instance is reachable from `my_epoll_create(c)` when a sequence of calls leads
from the created instance to it. -/
def Reachable (c : Int) (ep : my_epoll_t) : Prop :=
  ∃ ep0 calls, my_epoll_create c true = some ep0 ∧ run ep0 calls = ep

/-- The representation invariant of the ready array: one slot per unit of capacity and
a count within the array. -/
def QueueOk (ep : my_epoll_t) : Prop :=
  ep.ready_list.length = ep.max_ready.toNat ∧ 0 ≤ ep.ready_count ∧
    ep.ready_count ≤ ep.max_ready

/-- The representation invariant of the registration list: stored handles are
non-negative and pairwise distinct. -/
def TableOk (ep : my_epoll_t) : Prop :=
  (∀ n ∈ ep.rb_root, 0 ≤ n.fd) ∧ (ep.rb_root.map (fun n => n.fd)).Nodup

/-- A call is a Delete of handle `h`. -/
def deletes (h : Int) : Call → Bool
  | Call.ctl op fd _ _ => decide (op = MY_EPOLL_CTL_DEL ∧ fd = h)
  | _ => false

/-! ## The demo instance of `main` -/

/-- The three registrations of `main`: handle 1 for IN, handle 2 for IN|OUT, handle 3
for OUT. -/
def demo_calls : List Call :=
  [ Call.ctl MY_EPOLL_CTL_ADD 1 { events := MY_EPOLLIN, fd := 1 } true,
    Call.ctl MY_EPOLL_CTL_ADD 2 { events := MY_EPOLLIN ||| MY_EPOLLOUT, fd := 2 } true,
    Call.ctl MY_EPOLL_CTL_ADD 3 { events := MY_EPOLLOUT, fd := 3 } true ]

/-- The instance of `main` after `my_epoll_create(10)` and its three registrations. -/
def demo_ep : my_epoll_t :=
  { rb_root :=
      [ { fd := 1, event := { events := 1, fd := 1 } },
        { fd := 2, event := { events := 3, fd := 2 } },
        { fd := 3, event := { events := 2, fd := 3 } } ]
    ready_list := List.replicate 10 zero_event
    ready_count := 0
    max_ready := 10 }

/-- The instance of `main` after the two activations `my_epoll_activate(ep, 1, IN)` and
`my_epoll_activate(ep, 2, OUT)`. -/
def demo_ready_ep : my_epoll_t :=
  { demo_ep with
    ready_list :=
      [{ events := 1, fd := 1 }, { events := 2, fd := 2 }] ++ List.replicate 8 zero_event
    ready_count := 2 }

/-- The demo instance filled to its capacity: ten accepted activations of handle 1. -/
def demo_full_ep : my_epoll_t :=
  { demo_ep with
    ready_list := List.replicate 10 { events := 1, fd := 1 }
    ready_count := 10 }

/-- The instance after `k` consecutive calls `my_epoll_activate(ep, fd, events)`. -/
def activate_repeat (ep : my_epoll_t) (fd : Int) (events : Nat) : Nat → my_epoll_t
  | 0 => ep
  | k + 1 => my_epoll_activate (activate_repeat ep fd events k) fd events

/-- The instance after `my_epoll_ctl(ADD, h, ev)` followed by `my_epoll_ctl(DEL, h, NULL)`,
both with a successful allocation; the event argument of the Delete is never read. -/
def add_then_del (ep : my_epoll_t) (h : Int) (ev : my_epoll_event_t) : my_epoll_t :=
  (my_epoll_ctl (my_epoll_ctl ep MY_EPOLL_CTL_ADD h ev true).1
    MY_EPOLL_CTL_DEL h zero_event true).1

/-- The demo instance with capacity 2 instead of 10. -/
def demo_small_ep : my_epoll_t :=
  { demo_ep with
    ready_list := List.replicate 2 zero_event
    max_ready := 2 }

/-- The demo instance before its third registration: handles 1 and 2 only. -/
def demo_two_ep : my_epoll_t :=
  { demo_ep with
    rb_root :=
      [ { fd := 1, event := { events := 1, fd := 1 } },
        { fd := 2, event := { events := 3, fd := 2 } } ] }

end Epoll

namespace Mmu

/-! ## The page-table walker (`src/user_mmu.c`)

`physical_mem` is viewed as 32-bit words at 4-aligned byte addresses: every access of the
program is to a 4-byte `DTE_t` or `PTE_t` at a page-aligned base plus four times an index.
An entry word holds the 20-bit frame number in its low bits and the 12 attribute bits
above them (the order of the two bit-fields in the packed struct). `uint32_t` values are
`Nat` with an explicit reduction modulo `2^32` where the code shifts or adds. -/

/-- Constant `PAGE_SHIFT`. -/
def PAGE_SHIFT : Nat := 12

/-- Constant `PTE_PER_PAGE`. -/
def PTE_PER_PAGE : Nat := 1024

/-- Constant `DTE_PER_DIR`. -/
def DTE_PER_DIR : Nat := 1024

/-- Constant `DTE_INDEX_MASK`. -/
def DTE_INDEX_MASK : Nat := 0xFFC00000

/-- Constant `PTE_INDEX_MASK`. -/
def PTE_INDEX_MASK : Nat := 0x003FF000

/-- Constant `OFFSET_MASK`. -/
def OFFSET_MASK : Nat := 0x00000FFF

/-- Constant `DTE_INDEX_SHIFT`. -/
def DTE_INDEX_SHIFT : Nat := 22

/-- Constant `PTE_INDEX_SHIFT`. -/
def PTE_INDEX_SHIFT : Nat := 12

/-- Attribute bit `PRESENT_BIT`, `1 << 0`. -/
def PRESENT_BIT : Nat := 1 <<< 0

/-- Attribute bit `RW_BIT`, `1 << 1`. -/
def RW_BIT : Nat := 1 <<< 1

/-- Attribute bit `US_BIT`, `1 << 2`. -/
def US_BIT : Nat := 1 <<< 2

/-- Constant `PHYS_MEM_SIZE`, 16 MB. -/
def PHYS_MEM_SIZE : Nat := 16 * 1024 * 1024

/-- The size in bytes of a `DTE_t` and of a `PTE_t`. -/
def ENTRY_SIZE : Nat := 4

/-- The value `(uint32_t)-1` returned on every failure of `mmu_translate`. -/
def FAULT : Nat := 0xFFFFFFFF

/-- Reduction of a value to `uint32_t`. -/
def u32 (x : Nat) : Nat := x % 2 ^ 32

/-- Mirror of the C struct `DTE_t`. -/
structure DTE_t where
  pt_pfn : Nat
  attrs : Nat
deriving DecidableEq, Repr

/-- Mirror of the C struct `PTE_t`. -/
structure PTE_t where
  page_pfn : Nat
  attrs : Nat
deriving DecidableEq, Repr

/-- The two globals of the program: `physical_mem` and `CR3`. -/
structure Machine where
  physical_mem : Nat → Nat
  CR3 : Nat

/-- The machine at program start: zeroed memory and `CR3 = 0`. -/
def boot : Machine := { physical_mem := fun _ => 0, CR3 := 0 }

/-- The function `phys_to_virt`: the position in `physical_mem`, or `none` for `NULL`. -/
def phys_to_virt (phys_addr : Nat) : Option Nat :=
  if phys_addr ≥ PHYS_MEM_SIZE then none else some phys_addr

/-- The C call `memset(base, 0, nbytes)` on `physical_mem`. -/
def memset (mem : Nat → Nat) (base nbytes : Nat) : Nat → Nat :=
  fun a => if base ≤ a ∧ a < base + nbytes then 0 else mem a

/-- The read of the entry `dt[index]` as a `DTE_t`. -/
def read_DTE (mem : Nat → Nat) (dt index : Nat) : DTE_t :=
  { pt_pfn := mem (dt + ENTRY_SIZE * index) % 2 ^ 20
    attrs := mem (dt + ENTRY_SIZE * index) / 2 ^ 20 % 2 ^ 12 }

/-- The read of the entry `pt[index]` as a `PTE_t`. -/
def read_PTE (mem : Nat → Nat) (pt index : Nat) : PTE_t :=
  { page_pfn := mem (pt + ENTRY_SIZE * index) % 2 ^ 20
    attrs := mem (pt + ENTRY_SIZE * index) / 2 ^ 20 % 2 ^ 12 }

/-- The assignment to the 20-bit frame field of the entry at `base[index]`. -/
def write_pfn (mem : Nat → Nat) (base index value : Nat) : Nat → Nat :=
  fun a =>
    if a = base + ENTRY_SIZE * index then
      (mem a / 2 ^ 20 % 2 ^ 12) * 2 ^ 20 + value % 2 ^ 20
    else mem a

/-- The assignment to the 12-bit `attrs` field of the entry at `base[index]`. -/
def write_attrs (mem : Nat → Nat) (base index value : Nat) : Nat → Nat :=
  fun a =>
    if a = base + ENTRY_SIZE * index then (value % 2 ^ 12) * 2 ^ 20 + mem a % 2 ^ 20
    else mem a

/-- The function `init_page_directory(dt_pfn)`: the machine after the call and the C
return value. -/
def init_page_directory (st : Machine) (dt_pfn : Nat) : Machine × Int :=
  let dt_phys := u32 (dt_pfn <<< PAGE_SHIFT)
  match phys_to_virt dt_phys with
  | none => (st, -1)
  | some dt =>
    let mem1 := memset st.physical_mem dt (DTE_PER_DIR * ENTRY_SIZE)
    let pt_pfn := 100
    let pt_phys := u32 (pt_pfn <<< PAGE_SHIFT)
    match phys_to_virt pt_phys with
    | none => ({ st with physical_mem := mem1 }, -1)
    | some pt =>
      let mem2 := memset mem1 pt (PTE_PER_PAGE * ENTRY_SIZE)
      let mem3 := write_pfn mem2 dt 0 pt_pfn
      let mem4 := write_attrs mem3 dt 0 (PRESENT_BIT ||| RW_BIT ||| US_BIT)
      let page_pfn := 200
      let mem5 := write_pfn mem4 pt 0 page_pfn
      let mem6 := write_attrs mem5 pt 0 (PRESENT_BIT ||| RW_BIT ||| US_BIT)
      ({ physical_mem := mem6, CR3 := dt_pfn }, 0)

/-- The last message printed by `mmu_translate`: which check failed, or the completed
translation. -/
inductive Report where
  | dt_invalid
  | dte_fault (dte_index : Nat)
  | pt_invalid
  | pte_fault (pte_index : Nat)
  | translated
deriving DecidableEq, Repr

/-- The function `mmu_translate(virt_addr)`: the C return value and the last message
printed. -/
def mmu_translate (st : Machine) (virt_addr : Nat) : Nat × Report :=
  let dte_index := (virt_addr &&& DTE_INDEX_MASK) >>> DTE_INDEX_SHIFT
  let pte_index := (virt_addr &&& PTE_INDEX_MASK) >>> PTE_INDEX_SHIFT
  let offset := virt_addr &&& OFFSET_MASK
  let dt_phys := u32 (st.CR3 <<< PAGE_SHIFT)
  match phys_to_virt dt_phys with
  | none => (FAULT, Report.dt_invalid)
  | some dt =>
    let dte := read_DTE st.physical_mem dt dte_index
    if dte.attrs &&& PRESENT_BIT = 0 then (FAULT, Report.dte_fault dte_index)
    else
      let pt_phys := u32 (dte.pt_pfn <<< PAGE_SHIFT)
      match phys_to_virt pt_phys with
      | none => (FAULT, Report.pt_invalid)
      | some pt =>
        let pte := read_PTE st.physical_mem pt pte_index
        if pte.attrs &&& PRESENT_BIT = 0 then (FAULT, Report.pte_fault pte_index)
        else
          let page_phys := u32 (pte.page_pfn <<< PAGE_SHIFT)
          let phys_addr := u32 (page_phys + offset)
          (phys_addr, Report.translated)

end Mmu

namespace Epoll

/-! ## Lemmas on the list walk -/

theorem find_node_some {l : List rb_node_t} {fd : Int} {n : rb_node_t}
    (h : find_node l fd = some n) : n ∈ l ∧ n.fd = fd := by
  induction l with
  | nil => simp [find_node] at h
  | cons x rest ih =>
    unfold find_node at h
    split at h
    · cases h
      exact ⟨List.mem_cons_self _ _, by assumption⟩
    · exact ⟨List.mem_cons_of_mem _ (ih h).1, (ih h).2⟩

theorem find_node_none_iff (l : List rb_node_t) (fd : Int) :
    find_node l fd = none ↔ fd ∉ l.map (fun n => n.fd) := by
  induction l with
  | nil => simp [find_node]
  | cons x rest ih =>
    unfold find_node
    by_cases hx : x.fd = fd
    · simp [hx]
    · simp only [hx, if_false, ih, List.map_cons, List.mem_cons, not_or]
      constructor
      · intro h
        exact ⟨fun h2 => hx h2.symm, h⟩
      · intro h
        exact h.2

theorem find_node_append (l : List rb_node_t) (x : rb_node_t) (fd : Int) :
    find_node (l ++ [x]) fd =
      match find_node l fd with
      | some n => some n
      | none => if x.fd = fd then some x else none := by
  induction l with
  | nil => simp [find_node]
  | cons y rest ih =>
    simp only [List.cons_append, find_node]
    by_cases hy : y.fd = fd
    · simp [hy]
    · simp [hy, ih]

theorem map_fd_set_event (l : List rb_node_t) (fd : Int) (ev : my_epoll_event_t) :
    (set_event l fd ev).map (fun n => n.fd) = l.map (fun n => n.fd) := by
  induction l with
  | nil => simp [set_event]
  | cons y rest ih =>
    unfold set_event
    by_cases hy : y.fd = fd
    · simp [hy]
    · simp [hy, ih]

theorem unlink_node_sublist (l : List rb_node_t) (fd : Int) :
    List.Sublist (unlink_node l fd) l := by
  induction l with
  | nil => simp [unlink_node]
  | cons y rest ih =>
    unfold unlink_node
    by_cases hy : y.fd = fd
    · simp [hy]
    · simp [hy, ih]

theorem find_node_unlink_ne (l : List rb_node_t) (fd g : Int) (hne : g ≠ fd) :
    find_node (unlink_node l fd) g = find_node l g := by
  induction l with
  | nil => simp [unlink_node]
  | cons y rest ih =>
    unfold unlink_node
    by_cases hy : y.fd = fd
    · have hyg : ¬ y.fd = g := fun h => hne (h.symm.trans hy)
      simp [hy, find_node, hyg, Ne.symm hne]
    · by_cases hyg : y.fd = g
      · simp [find_node, hyg, hne]
      · simp [hy, find_node, hyg, ih]

theorem find_node_isSome_iff (l : List rb_node_t) (fd : Int) :
    (find_node l fd).isSome ↔ fd ∈ l.map (fun n => n.fd) := by
  rw [← not_iff_not, ← find_node_none_iff]
  cases find_node l fd <;> simp

/-! ## Frame lemmas of `my_epoll_ctl` -/

theorem ctl_ready_list (ep : my_epoll_t) (op fd : Int) (ev : my_epoll_event_t) (ok : Bool) :
    (my_epoll_ctl ep op fd ev ok).1.ready_list = ep.ready_list := by
  unfold my_epoll_ctl
  dsimp only
  repeat' split
  all_goals rfl

theorem ctl_ready_count (ep : my_epoll_t) (op fd : Int) (ev : my_epoll_event_t) (ok : Bool) :
    (my_epoll_ctl ep op fd ev ok).1.ready_count = ep.ready_count := by
  unfold my_epoll_ctl
  dsimp only
  repeat' split
  all_goals rfl

theorem ctl_max_ready (ep : my_epoll_t) (op fd : Int) (ev : my_epoll_event_t) (ok : Bool) :
    (my_epoll_ctl ep op fd ev ok).1.max_ready = ep.max_ready := by
  unfold my_epoll_ctl
  dsimp only
  repeat' split
  all_goals rfl

theorem activate_rb_root (ep : my_epoll_t) (fd : Int) (e : Nat) :
    (my_epoll_activate ep fd e).rb_root = ep.rb_root := by
  unfold my_epoll_activate
  repeat' split
  all_goals rfl

theorem activate_max_ready (ep : my_epoll_t) (fd : Int) (e : Nat) :
    (my_epoll_activate ep fd e).max_ready = ep.max_ready := by
  unfold my_epoll_activate
  repeat' split
  all_goals rfl

theorem wait_rb_root (ep : my_epoll_t) (buf : List my_epoll_event_t) (k t : Int) :
    (my_epoll_wait ep buf k t).1.rb_root = ep.rb_root := by
  unfold my_epoll_wait
  dsimp only
  repeat' split
  all_goals rfl

theorem wait_max_ready (ep : my_epoll_t) (buf : List my_epoll_event_t) (k t : Int) :
    (my_epoll_wait ep buf k t).1.max_ready = ep.max_ready := by
  unfold my_epoll_wait
  dsimp only
  repeat' split
  all_goals rfl

theorem step_max_ready (ep : my_epoll_t) (call : Call) :
    (step ep call).max_ready = ep.max_ready := by
  cases call with
  | ctl op fd ev ok => exact ctl_max_ready ep op fd ev ok
  | activate fd e => exact activate_max_ready ep fd e
  | wait buf k t => exact wait_max_ready ep buf k t

/-! ## Preservation of the representation invariants -/

theorem memset_zero_length (l : List my_epoll_event_t) (n : Nat) (h : l.length = n) :
    (memset_zero l n).length = n := by
  simp [memset_zero, h]

theorem step_QueueOk (ep : my_epoll_t) (call : Call) (h : QueueOk ep) :
    QueueOk (step ep call) := by
  obtain ⟨hlen, h0, hle⟩ := h
  cases call with
  | ctl op fd ev ok =>
    simp only [step, QueueOk, ctl_ready_list, ctl_ready_count, ctl_max_ready]
    exact ⟨hlen, h0, hle⟩
  | activate fd e =>
    simp only [step]
    unfold my_epoll_activate
    split
    · exact ⟨hlen, h0, hle⟩
    · rename_i hg
      split
      · exact ⟨hlen, h0, hle⟩
      · split
        · exact ⟨hlen, h0, hle⟩
        · refine ⟨by simpa using hlen, ?_, ?_⟩
          · show 0 ≤ ep.ready_count + 1
            omega
          · show ep.ready_count + 1 ≤ ep.max_ready
            simp only [not_or, not_le, ge_iff_le] at hg
            omega
  | wait buf k t =>
    simp only [step]
    unfold my_epoll_wait
    split
    · exact ⟨hlen, h0, hle⟩
    · exact ⟨memset_zero_length _ _ hlen, le_refl _, le_trans h0 hle⟩

theorem step_TableOk (ep : my_epoll_t) (call : Call) (h : TableOk ep) :
    TableOk (step ep call) := by
  obtain ⟨hnn, hnd⟩ := h
  cases call with
  | activate fd e =>
    simp only [step, TableOk, activate_rb_root]
    exact ⟨hnn, hnd⟩
  | wait buf k t =>
    simp only [step, TableOk, wait_rb_root]
    exact ⟨hnn, hnd⟩
  | ctl op fd ev ok =>
    simp only [step]
    unfold my_epoll_ctl
    split
    · exact ⟨hnn, hnd⟩
    · rename_i hfd
      simp only
      split
      · split
        · exact ⟨hnn, hnd⟩
        · rename_i hnone
          split
          · exact ⟨hnn, hnd⟩
          · constructor
            · intro n hn
              simp only [List.mem_append, List.mem_singleton] at hn
              rcases hn with hn | hn
              · exact hnn n hn
              · subst hn
                show 0 ≤ fd
                omega
            · show ((ep.rb_root ++ [_]).map (fun (n : rb_node_t) => n.fd)).Nodup
              rw [List.map_append, List.nodup_append]
              refine ⟨hnd, by simp, ?_⟩
              rw [find_node_none_iff] at hnone
              simp only [List.map_cons, List.map_nil]
              intro a ha hb
              simp only [List.mem_singleton] at hb
              subst hb
              exact hnone ha
      · split
        · split
          · exact ⟨hnn, hnd⟩
          · constructor
            · intro n hn
              have hmem : n.fd ∈ (set_event ep.rb_root fd ev).map (fun n => n.fd) :=
                List.mem_map_of_mem _ hn
              rw [map_fd_set_event] at hmem
              obtain ⟨n2, hn2, heq⟩ := List.mem_map.mp hmem
              have := hnn n2 hn2
              omega
            · show ((set_event ep.rb_root fd ev).map (fun n => n.fd)).Nodup
              rw [map_fd_set_event]
              exact hnd
        · split
          · split
            · exact ⟨hnn, hnd⟩
            · constructor
              · intro n hn
                exact hnn n ((unlink_node_sublist ep.rb_root fd).subset hn)
              · exact List.Nodup.sublist ((unlink_node_sublist ep.rb_root fd).map _) hnd
          · exact ⟨hnn, hnd⟩

theorem run_QueueOk (calls : List Call) (ep : my_epoll_t) (h : QueueOk ep) :
    QueueOk (run ep calls) := by
  induction calls generalizing ep with
  | nil => exact h
  | cons call rest ih => exact ih (step ep call) (step_QueueOk ep call h)

theorem run_TableOk (calls : List Call) (ep : my_epoll_t) (h : TableOk ep) :
    TableOk (run ep calls) := by
  induction calls generalizing ep with
  | nil => exact h
  | cons call rest ih => exact ih (step ep call) (step_TableOk ep call h)

theorem run_max_ready (calls : List Call) (ep : my_epoll_t) :
    (run ep calls).max_ready = ep.max_ready := by
  induction calls generalizing ep with
  | nil => rfl
  | cons call rest ih => exact (ih (step ep call)).trans (step_max_ready ep call)

theorem create_QueueOk (c : Int) (hc : 0 ≤ c) (ep : my_epoll_t)
    (h : my_epoll_create c true = some ep) : QueueOk ep := by
  simp only [my_epoll_create, Bool.not_true, Bool.false_eq_true, if_false,
    Option.some.injEq] at h
  subst h
  exact ⟨by simp, le_refl _, hc⟩

theorem create_TableOk (c : Int) (ep : my_epoll_t)
    (h : my_epoll_create c true = some ep) : TableOk ep := by
  simp only [my_epoll_create, Bool.not_true, Bool.false_eq_true, if_false,
    Option.some.injEq] at h
  subst h
  exact ⟨by simp, by simp⟩

theorem Reachable.queueOk {c : Int} {ep : my_epoll_t} (hc : 0 ≤ c) (h : Reachable c ep) :
    QueueOk ep := by
  obtain ⟨ep0, calls, h0, rfl⟩ := h
  exact run_QueueOk calls ep0 (create_QueueOk c hc ep0 h0)

theorem Reachable.tableOk {c : Int} {ep : my_epoll_t} (h : Reachable c ep) :
    TableOk ep := by
  obtain ⟨ep0, calls, h0, rfl⟩ := h
  exact run_TableOk calls ep0 (create_TableOk c ep0 h0)

theorem Reachable.capacity {c : Int} {ep : my_epoll_t} (h : Reachable c ep) :
    ep.max_ready = c := by
  obtain ⟨ep0, calls, h0, rfl⟩ := h
  rw [run_max_ready]
  simp only [my_epoll_create, Bool.not_true, Bool.false_eq_true, if_false,
    Option.some.injEq] at h0
  subst h0
  rfl

/-! ## The accepting path of `my_epoll_activate` and the copy of `my_epoll_wait` -/

theorem take_set_succ {α : Type} (l : List α) (n : Nat) (x : α) (h : n < l.length) :
    (l.set n x).take (n + 1) = l.take n ++ [x] := by
  induction l generalizing n with
  | nil => simp at h
  | cons y rest ih =>
    cases n with
    | zero => simp
    | succ k =>
      simp only [List.length_cons, Nat.add_lt_add_iff_right] at h
      simp [ih k h]

theorem registered_nonneg {ep : my_epoll_t} (ht : TableOk ep) {h : Int} {m : Nat}
    (hm : registered_mask ep h = some m) : 0 ≤ h := by
  unfold registered_mask at hm
  cases hf : find_node ep.rb_root h with
  | none => simp [hf] at hm
  | some node =>
    obtain ⟨hmem, hfd⟩ := find_node_some hf
    have := ht.1 node hmem
    omega

theorem activate_accept (ep : my_epoll_t) (ht : TableOk ep) (h : Int) (m e : Nat)
    (hm : registered_mask ep h = some m) (hne : m &&& e ≠ 0)
    (hcap : ep.ready_count < ep.max_ready) :
    my_epoll_activate ep h e =
      { ep with
          ready_list := ep.ready_list.set ep.ready_count.toNat { events := e, fd := h }
          ready_count := ep.ready_count + 1 } := by
  have h0 : 0 ≤ h := registered_nonneg ht hm
  unfold registered_mask at hm
  cases hf : find_node ep.rb_root h with
  | none => simp [hf] at hm
  | some node =>
    simp only [hf, Option.map_some', Option.some.injEq] at hm
    unfold my_epoll_activate
    have hg : ¬ (h < 0 ∨ ep.ready_count ≥ ep.max_ready) := by
      simp only [not_or, not_lt, ge_iff_le, not_le]
      exact ⟨h0, hcap⟩
    simp only [hg, if_false, hf, hm, hne]

theorem activate_accept_queue (ep : my_epoll_t) (hq : QueueOk ep) (ht : TableOk ep) (h : Int)
    (m e : Nat) (hm : registered_mask ep h = some m) (hne : m &&& e ≠ 0)
    (hcap : ep.ready_count < ep.max_ready) :
    ready_queue (my_epoll_activate ep h e) = ready_queue ep ++ [{ events := e, fd := h }] := by
  rw [activate_accept ep ht h m e hm hne hcap]
  obtain ⟨hlen, h0, hle⟩ := hq
  unfold ready_queue
  have hn : (ep.ready_count + 1).toNat = ep.ready_count.toNat + 1 := by omega
  simp only [hn]
  apply take_set_succ
  omega

theorem wait_copy (ep : my_epoll_t) (hq : QueueOk ep) (buf : List my_epoll_event_t)
    (k t : Int) (hk : 0 < k) :
    (my_epoll_wait ep buf k t).2.2 = min ep.ready_count k ∧
      (my_epoll_wait ep buf k t).2.1.take (min ep.ready_count k).toNat =
        (ready_queue ep).take (min ep.ready_count k).toNat := by
  obtain ⟨hlen, h0, hle⟩ := hq
  unfold my_epoll_wait
  have hk0 : ¬ k ≤ 0 := by omega
  simp only [hk0, if_false]
  by_cases hgt : ep.ready_count > k
  · have hmin : min ep.ready_count k = k := by omega
    simp only [hgt, if_true, hmin, memcpy, ready_queue, true_and]
    rw [List.take_append_of_le_length (by simp; omega)]
    simp only [List.take_take]
    congr 1
    omega
  · have hmin : min ep.ready_count k = ep.ready_count := by omega
    simp only [hgt, if_false, hmin, memcpy, ready_queue, true_and]
    rw [List.take_append_of_le_length (by simp; omega)]

theorem wait_clear (ep : my_epoll_t) (buf : List my_epoll_event_t) (k t : Int) (hk : 0 < k) :
    (my_epoll_wait ep buf k t).1.ready_count = 0 := by
  unfold my_epoll_wait
  have hk0 : ¬ k ≤ 0 := by omega
  simp only [hk0, if_false]

theorem wait_second_zero (ep : my_epoll_t) (h0 : ep.ready_count = 0)
    (buf : List my_epoll_event_t) (k t : Int) (hk : 0 < k) :
    (my_epoll_wait ep buf k t).2.2 = 0 := by
  unfold my_epoll_wait
  have hk0 : ¬ k ≤ 0 := by omega
  have hgt : ¬ (0 : Int) > k := by omega
  simp only [hk0, if_false, h0, hgt]

theorem wait_ready_list (ep : my_epoll_t) (hq : QueueOk ep) (buf : List my_epoll_event_t)
    (k t : Int) (hk : 0 < k) :
    (my_epoll_wait ep buf k t).1.ready_list =
      List.replicate ep.max_ready.toNat zero_event := by
  unfold my_epoll_wait
  have hk0 : ¬ k ≤ 0 := by omega
  simp only [hk0, if_false, memset_zero]
  rw [List.drop_of_length_le (le_of_eq hq.1), List.append_nil]

/-! ## Registration is kept by every call but a Delete of the handle -/

theorem ctl_add_ok_registered (ep : my_epoll_t) (h : Int) (ev : my_epoll_event_t) (ok : Bool)
    (hadd : (my_epoll_ctl ep MY_EPOLL_CTL_ADD h ev ok).2 = 0) :
    (find_node (my_epoll_ctl ep MY_EPOLL_CTL_ADD h ev ok).1.rb_root h).isSome = true := by
  unfold my_epoll_ctl at hadd ⊢
  by_cases hneg : h < 0
  · simp [hneg] at hadd
  · simp only [hneg, if_false, if_true] at hadd ⊢
    cases hf : find_node ep.rb_root h with
    | some node => simp [hf] at hadd
    | none =>
      cases ok with
      | false => simp [hf] at hadd
      | true => simp [find_node_append, hf]

theorem ctl_add_registered_fails (ep : my_epoll_t) (h : Int) (ev : my_epoll_event_t)
    (ok : Bool) (hreg : (find_node ep.rb_root h).isSome = true) :
    (my_epoll_ctl ep MY_EPOLL_CTL_ADD h ev ok).2 = -1 := by
  unfold my_epoll_ctl
  by_cases hneg : h < 0
  · simp [hneg]
  · simp only [hneg, if_false, if_true]
    cases hf : find_node ep.rb_root h with
    | some node => rfl
    | none => simp [hf] at hreg

theorem step_keeps_registered (ep : my_epoll_t) (h : Int) (call : Call)
    (hnd : deletes h call = false) (hreg : (find_node ep.rb_root h).isSome = true) :
    (find_node (step ep call).rb_root h).isSome = true := by
  cases call with
  | activate fd e => simpa only [step, activate_rb_root] using hreg
  | wait buf k t => simpa only [step, wait_rb_root] using hreg
  | ctl op fd ev ok =>
    simp only [step]
    unfold my_epoll_ctl
    split
    · exact hreg
    · dsimp only
      split
      · split
        · exact hreg
        · split
          · exact hreg
          · show (find_node (ep.rb_root ++ [_]) h).isSome = true
            rw [find_node_append]
            cases hf : find_node ep.rb_root h with
            | some node => rfl
            | none => simp [hf] at hreg
      · split
        · split
          · exact hreg
          · show (find_node (set_event ep.rb_root fd ev) h).isSome = true
            rw [find_node_isSome_iff, map_fd_set_event, ← find_node_isSome_iff]
            exact hreg
        · split
          · rename_i hdel
            have hne : h ≠ fd := by
              intro heq
              simp [deletes, hdel, heq] at hnd
            split
            · exact hreg
            · show (find_node (unlink_node ep.rb_root fd) h).isSome = true
              rw [find_node_unlink_ne _ _ _ hne]
              exact hreg
          · exact hreg

theorem run_keeps_registered (calls : List Call) (ep : my_epoll_t) (h : Int)
    (hnd : ∀ call ∈ calls, deletes h call = false)
    (hreg : (find_node ep.rb_root h).isSome = true) :
    (find_node (run ep calls).rb_root h).isSome = true := by
  induction calls generalizing ep with
  | nil => exact hreg
  | cons call rest ih =>
    exact ih (step ep call) (fun c hc => hnd c (List.mem_cons_of_mem _ hc))
      (step_keeps_registered ep h call (hnd call (List.mem_cons_self _ _)) hreg)

/-! ## The demo instance of `main`: reachability and validity -/

theorem demo_reachable : Reachable 10 demo_ep :=
  ⟨_, demo_calls, rfl, by decide⟩

theorem demo_QueueOk : QueueOk demo_ep := by
  refine ⟨by decide, by decide, by decide⟩

theorem demo_TableOk : TableOk demo_ep := by
  refine ⟨by decide, by decide⟩

/-! ## Claims -/

/-- C1: in every instance reachable from `my_epoll_create(c)` with `c > 0`, a call
`my_epoll_activate(h, e)` leaves the whole instance unchanged if and only if `h` has no
entry in the registration list, or the mask registered for `h` has no bit in common
with `e`, or the ready count equals the capacity. -/
theorem activate_noop_iff (c : Int) (hc : 0 < c) (ep : my_epoll_t) (hr : Reachable c ep)
    (h : Int) (e : Nat) :
    my_epoll_activate ep h e = ep ↔
      (registered_mask ep h = none ∨
        (∃ m, registered_mask ep h = some m ∧ m &&& e = 0) ∨
        ep.ready_count = ep.max_ready) := by
  have hq := hr.queueOk (le_of_lt hc)
  have ht := hr.tableOk
  constructor
  · intro hno
    by_cases hcap : ep.ready_count = ep.max_ready
    · exact Or.inr (Or.inr hcap)
    · cases hm : registered_mask ep h with
      | none => exact Or.inl rfl
      | some m =>
        by_cases hz : m &&& e = 0
        · exact Or.inr (Or.inl ⟨m, rfl, hz⟩)
        · exfalso
          have hlt : ep.ready_count < ep.max_ready := lt_of_le_of_ne hq.2.2 hcap
          rw [activate_accept ep ht h m e hm hz hlt] at hno
          have := congrArg my_epoll_t.ready_count hno
          simp only at this
          omega
  · rintro (hnone | ⟨m, hm, hz⟩ | hcap)
    · unfold registered_mask at hnone
      unfold my_epoll_activate
      cases hf : find_node ep.rb_root h with
      | none => simp
      | some node => simp [hf] at hnone
    · unfold registered_mask at hm
      unfold my_epoll_activate
      cases hf : find_node ep.rb_root h with
      | none => simp
      | some node =>
        simp only [hf, Option.map_some', Option.some.injEq] at hm
        simp [hm, hz]
    · unfold my_epoll_activate
      simp [hcap]

/-- Witness of C1 on the demo instance: handle 2 is registered for IN|OUT and the queue
is empty, so activating it with OUT changes the instance. -/
theorem activate_noop_iff_witness :
    (0 : Int) < 10 ∧ Reachable 10 demo_ep ∧
      (my_epoll_activate demo_ep 2 MY_EPOLLOUT = demo_ep ↔
        (registered_mask demo_ep 2 = none ∨
          (∃ m, registered_mask demo_ep 2 = some m ∧ m &&& MY_EPOLLOUT = 0) ∨
          demo_ep.ready_count = demo_ep.max_ready)) :=
  ⟨by decide, demo_reachable,
    activate_noop_iff 10 (by decide) demo_ep demo_reachable 2 MY_EPOLLOUT⟩

/-- C2: on every valid instance with ready count `n` and for every `maxevents > 0`,
`my_epoll_wait` returns `min(n, maxevents)`, the first `min(n, maxevents)` slots of the
output buffer are the first `min(n, maxevents)` records of the ready queue before the
call, in the same order, and the return value is 0 when the queue was empty. -/
theorem wait_returns_min_and_copies (ep : my_epoll_t) (hq : QueueOk ep)
    (buf : List my_epoll_event_t) (maxevents timeout : Int) (hk : 0 < maxevents) :
    (my_epoll_wait ep buf maxevents timeout).2.2 = min ep.ready_count maxevents ∧
      (my_epoll_wait ep buf maxevents timeout).2.1.take
          (min ep.ready_count maxevents).toNat =
        (ready_queue ep).take (min ep.ready_count maxevents).toNat ∧
      (ep.ready_count = 0 → (my_epoll_wait ep buf maxevents timeout).2.2 = 0) := by
  obtain ⟨hret, hout⟩ := wait_copy ep hq buf maxevents timeout hk
  refine ⟨hret, hout, ?_⟩
  intro h0
  rw [hret, h0]
  omega

/-- Witness of C2 on the demo instance with two queued records: a wait for one event
returns 1 and copies the oldest record. -/
theorem wait_returns_min_and_copies_witness :
    QueueOk demo_ready_ep ∧ (0 : Int) < 1 ∧
      ((my_epoll_wait demo_ready_ep [zero_event] 1 100).2.2 =
          min demo_ready_ep.ready_count 1 ∧
        (my_epoll_wait demo_ready_ep [zero_event] 1 100).2.1.take
            (min demo_ready_ep.ready_count 1).toNat =
          (ready_queue demo_ready_ep).take (min demo_ready_ep.ready_count 1).toNat ∧
        (demo_ready_ep.ready_count = 0 →
          (my_epoll_wait demo_ready_ep [zero_event] 1 100).2.2 = 0)) :=
  ⟨⟨by decide, by decide, by decide⟩, by decide,
    wait_returns_min_and_copies demo_ready_ep ⟨by decide, by decide, by decide⟩
      [zero_event] 1 100 (by decide)⟩

/-- C3: for every instance and every `maxevents > 0`, after `my_epoll_wait` the ready
count is 0 and the ready queue is empty, whatever the count was before (on a valid
instance every slot of the ready array is zeroed, so the records beyond `maxevents` are
gone), and an immediately following wait returns 0. -/
theorem wait_empties_queue (ep : my_epoll_t) (buf : List my_epoll_event_t)
    (maxevents timeout : Int) (hk : 0 < maxevents) :
    (my_epoll_wait ep buf maxevents timeout).1.ready_count = 0 ∧
      ready_queue (my_epoll_wait ep buf maxevents timeout).1 = [] ∧
      (QueueOk ep →
        (my_epoll_wait ep buf maxevents timeout).1.ready_list =
          List.replicate ep.max_ready.toNat zero_event) ∧
      (∀ (buf2 : List my_epoll_event_t) (k2 t2 : Int), 0 < k2 →
        (my_epoll_wait (my_epoll_wait ep buf maxevents timeout).1 buf2 k2 t2).2.2 = 0) := by
  have hc := wait_clear ep buf maxevents timeout hk
  refine ⟨hc, ?_, ?_, ?_⟩
  · simp [ready_queue, hc]
  · intro hq
    exact wait_ready_list ep hq buf maxevents timeout hk
  · intro buf2 k2 t2 hk2
    exact wait_second_zero _ hc buf2 k2 t2 hk2

/-- Witness of C3 on the demo instance with two queued records and `maxevents = 1`. -/
theorem wait_empties_queue_witness :
    (0 : Int) < 1 ∧
      (my_epoll_wait demo_ready_ep [zero_event] 1 0).1.ready_count = 0 ∧
      ready_queue (my_epoll_wait demo_ready_ep [zero_event] 1 0).1 = [] ∧
      (QueueOk demo_ready_ep →
        (my_epoll_wait demo_ready_ep [zero_event] 1 0).1.ready_list =
          List.replicate demo_ready_ep.max_ready.toNat zero_event) ∧
      (∀ (buf2 : List my_epoll_event_t) (k2 t2 : Int), 0 < k2 →
        (my_epoll_wait (my_epoll_wait demo_ready_ep [zero_event] 1 0).1 buf2 k2 t2).2.2
          = 0) :=
  ⟨by decide, wait_empties_queue demo_ready_ep [zero_event] 1 0 (by decide)⟩

/-- C4: on every valid instance with an empty ready queue and capacity at least 2, for
registered handles `a` and `b` (possibly equal) and observed masks `e1`, `e2` matching
their registered masks, `my_epoll_activate(a, e1)` then `my_epoll_activate(b, e2)` then
one `my_epoll_wait` with `maxevents >= 2` returns 2 and the output buffer starts with
`{a, e1}, {b, e2}` in that order. -/
theorem activate_twice_wait_order (ep : my_epoll_t) (hq : QueueOk ep) (ht : TableOk ep)
    (hempty : ep.ready_count = 0) (hcap : 2 ≤ ep.max_ready) (a b : Int)
    (ma mb e1 e2 : Nat) (ha : registered_mask ep a = some ma)
    (hb : registered_mask ep b = some mb) (h1 : ma &&& e1 ≠ 0) (h2 : mb &&& e2 ≠ 0)
    (buf : List my_epoll_event_t) (maxevents timeout : Int) (hk : 2 ≤ maxevents) :
    (my_epoll_wait (my_epoll_activate (my_epoll_activate ep a e1) b e2)
        buf maxevents timeout).2.2 = 2 ∧
      (my_epoll_wait (my_epoll_activate (my_epoll_activate ep a e1) b e2)
        buf maxevents timeout).2.1.take 2 =
        [{ events := e1, fd := a }, { events := e2, fd := b }] := by
  have hlt1 : ep.ready_count < ep.max_ready := by omega
  have hq1 : QueueOk (my_epoll_activate ep a e1) := step_QueueOk ep (Call.activate a e1) hq
  have ht1 : TableOk (my_epoll_activate ep a e1) := step_TableOk ep (Call.activate a e1) ht
  have hb1 : registered_mask (my_epoll_activate ep a e1) b = some mb := by
    unfold registered_mask at hb ⊢
    rw [activate_rb_root]
    exact hb
  have hc1 : (my_epoll_activate ep a e1).ready_count = 1 := by
    rw [activate_accept ep ht a ma e1 ha h1 hlt1]
    show ep.ready_count + 1 = 1
    omega
  have hm1 : (my_epoll_activate ep a e1).max_ready = ep.max_ready := activate_max_ready ep a e1
  have hlt2 : (my_epoll_activate ep a e1).ready_count < (my_epoll_activate ep a e1).max_ready := by
    omega
  have hq2 : QueueOk (my_epoll_activate (my_epoll_activate ep a e1) b e2) :=
    step_QueueOk _ (Call.activate b e2) hq1
  have hc2 : (my_epoll_activate (my_epoll_activate ep a e1) b e2).ready_count = 2 := by
    rw [activate_accept _ ht1 b mb e2 hb1 h2 hlt2]
    show (my_epoll_activate ep a e1).ready_count + 1 = 2
    omega
  have hqueue : ready_queue (my_epoll_activate (my_epoll_activate ep a e1) b e2) =
      [{ events := e1, fd := a }, { events := e2, fd := b }] := by
    rw [activate_accept_queue _ hq1 ht1 b mb e2 hb1 h2 hlt2,
      activate_accept_queue ep hq ht a ma e1 ha h1 hlt1]
    simp [ready_queue, hempty]
  obtain ⟨hret, hout⟩ := wait_copy _ hq2 buf maxevents timeout (by omega)
  have hmin : min (my_epoll_activate (my_epoll_activate ep a e1) b e2).ready_count maxevents
      = 2 := by
    rw [hc2]
    omega
  rw [hmin] at hret hout
  refine ⟨hret, ?_⟩
  have h2n : (2 : Int).toNat = 2 := rfl
  rw [h2n, hqueue] at hout
  simpa using hout

/-- Witness of C4 on the demo instance: the two activations of `main`, handle 1 with IN
then handle 2 with OUT, followed by a wait for 10 events. -/
theorem activate_twice_wait_order_witness :
    (my_epoll_wait (my_epoll_activate (my_epoll_activate demo_ep 1 MY_EPOLLIN) 2 MY_EPOLLOUT)
        (List.replicate 10 zero_event) 10 100).2.2 = 2 ∧
      (my_epoll_wait (my_epoll_activate (my_epoll_activate demo_ep 1 MY_EPOLLIN) 2 MY_EPOLLOUT)
        (List.replicate 10 zero_event) 10 100).2.1.take 2 =
        [{ events := MY_EPOLLIN, fd := 1 }, { events := MY_EPOLLOUT, fd := 2 }] :=
  activate_twice_wait_order demo_ep demo_QueueOk demo_TableOk rfl (by decide) 1 2
    MY_EPOLLIN (MY_EPOLLIN ||| MY_EPOLLOUT) MY_EPOLLIN MY_EPOLLOUT (by decide) (by decide)
    (by decide) (by decide) (List.replicate 10 zero_event) 10 100 (by decide)

/-- C5: if `my_epoll_ctl(ADD, h, m)` returns 0, then `my_epoll_ctl(ADD, h, m2)` called
right after it returns -1 whatever the second event and allocation outcome are, and so
does it after any sequence of calls none of which is a Delete of `h`. -/
theorem add_after_add_fails (ep : my_epoll_t) (h : Int) (ev ev2 : my_epoll_event_t)
    (ok ok2 : Bool) (hadd : (my_epoll_ctl ep MY_EPOLL_CTL_ADD h ev ok).2 = 0) :
    (my_epoll_ctl (my_epoll_ctl ep MY_EPOLL_CTL_ADD h ev ok).1
        MY_EPOLL_CTL_ADD h ev2 ok2).2 = -1 ∧
      (∀ calls : List Call, (∀ call ∈ calls, deletes h call = false) →
        (my_epoll_ctl (run (my_epoll_ctl ep MY_EPOLL_CTL_ADD h ev ok).1 calls)
          MY_EPOLL_CTL_ADD h ev2 ok2).2 = -1) := by
  have hreg := ctl_add_ok_registered ep h ev ok hadd
  refine ⟨ctl_add_registered_fails _ h ev2 ok2 hreg, ?_⟩
  intro calls hnd
  exact ctl_add_registered_fails _ h ev2 ok2 (run_keeps_registered calls _ h hnd hreg)

/-- Witness of C5 on the demo instance: handle 4 is added with IN, then added again
with OUT, right away and after a Modify of 4, a Delete of 3, an activation and a wait. -/
theorem add_after_add_fails_witness :
    (my_epoll_ctl demo_ep MY_EPOLL_CTL_ADD 4 { events := 1, fd := 4 } true).2 = 0 ∧
      (my_epoll_ctl (my_epoll_ctl demo_ep MY_EPOLL_CTL_ADD 4 { events := 1, fd := 4 } true).1
          MY_EPOLL_CTL_ADD 4 { events := 2, fd := 4 } true).2 = -1 ∧
      (my_epoll_ctl
          (run (my_epoll_ctl demo_ep MY_EPOLL_CTL_ADD 4 { events := 1, fd := 4 } true).1
            [ Call.ctl MY_EPOLL_CTL_MOD 4 { events := 3, fd := 4 } true,
              Call.ctl MY_EPOLL_CTL_DEL 3 zero_event true,
              Call.activate 4 1,
              Call.wait [zero_event] 1 0 ])
          MY_EPOLL_CTL_ADD 4 { events := 2, fd := 4 } true).2 = -1 :=
  ⟨by decide,
    (add_after_add_fails demo_ep 4 { events := 1, fd := 4 } { events := 2, fd := 4 } true true
      (by decide)).1,
    (add_after_add_fails demo_ep 4 { events := 1, fd := 4 } { events := 2, fd := 4 } true true
      (by decide)).2 _ (by decide)⟩

/-- C6: for every instance and every handle `h` with no entry in the registration list,
`my_epoll_ctl(MOD, h, m)` and `my_epoll_ctl(DEL, h)` both return -1, for every event
argument. -/
theorem mod_del_unregistered_fail (ep : my_epoll_t) (h : Int)
    (hnone : registered_mask ep h = none) (ev : my_epoll_event_t) (ok : Bool) :
    (my_epoll_ctl ep MY_EPOLL_CTL_MOD h ev ok).2 = -1 ∧
      (my_epoll_ctl ep MY_EPOLL_CTL_DEL h ev ok).2 = -1 := by
  have hf : find_node ep.rb_root h = none := by
    unfold registered_mask at hnone
    cases hf : find_node ep.rb_root h with
    | none => rfl
    | some node => simp [hf] at hnone
  unfold my_epoll_ctl
  by_cases hneg : h < 0
  · simp [hneg]
  · simp [hneg, hf, MY_EPOLL_CTL_MOD, MY_EPOLL_CTL_DEL, MY_EPOLL_CTL_ADD]

/-- Witness of C6 on the demo instance: handle 7 was never registered. -/
theorem mod_del_unregistered_fail_witness :
    registered_mask demo_ep 7 = none ∧
      (my_epoll_ctl demo_ep MY_EPOLL_CTL_MOD 7 { events := 3, fd := 7 } true).2 = -1 ∧
      (my_epoll_ctl demo_ep MY_EPOLL_CTL_DEL 7 { events := 3, fd := 7 } true).2 = -1 :=
  ⟨by decide, mod_del_unregistered_fail demo_ep 7 (by decide) { events := 3, fd := 7 } true⟩

/-- C7: in every instance reachable from `my_epoll_create(c)` with `c > 0` by any
sequence of control, activate and wait calls, the ready count lies between 0 and the
capacity, the ready queue has exactly that many records, and the capacity is still
`c`. -/
theorem ready_count_within_capacity (c : Int) (hc : 0 < c) (ep : my_epoll_t)
    (hr : Reachable c ep) :
    0 ≤ ep.ready_count ∧ ep.ready_count ≤ ep.max_ready ∧ ep.max_ready = c ∧
      ((ready_queue ep).length : Int) = ep.ready_count := by
  obtain ⟨hlen, h0, hle⟩ := hr.queueOk (le_of_lt hc)
  refine ⟨h0, hle, hr.capacity, ?_⟩
  unfold ready_queue
  rw [List.length_take, hlen]
  omega

theorem demo_full_reachable : Reachable 10 demo_full_ep :=
  ⟨_, demo_calls ++ List.replicate 12 (Call.activate 1 MY_EPOLLIN), rfl, by decide⟩

/-- Witness of C7: after twelve activations on the demo instance of capacity 10 the
ready count is 10. -/
theorem ready_count_within_capacity_witness :
    (0 : Int) < 10 ∧ Reachable 10 demo_full_ep ∧
      (0 ≤ demo_full_ep.ready_count ∧ demo_full_ep.ready_count ≤ demo_full_ep.max_ready ∧
        demo_full_ep.max_ready = 10 ∧
        ((ready_queue demo_full_ep).length : Int) = demo_full_ep.ready_count) :=
  ⟨by decide, demo_full_reachable,
    ready_count_within_capacity 10 (by decide) demo_full_ep demo_full_reachable⟩

/-- C8: in every instance reachable from `my_epoll_create` by any sequence of
Add/Modify/Delete, activate and wait calls, no two nodes of the registration list have
the same `fd` and every stored `fd` is non-negative. -/
theorem registration_unique_nonneg (c : Int) (ep : my_epoll_t) (hr : Reachable c ep) :
    (ep.rb_root.map (fun n => n.fd)).Nodup ∧ ∀ n ∈ ep.rb_root, 0 ≤ n.fd :=
  ⟨hr.tableOk.2, hr.tableOk.1⟩

/-- Witness of C8 on the demo instance with its three registrations. -/
theorem registration_unique_nonneg_witness :
    Reachable 10 demo_ep ∧
      ((demo_ep.rb_root.map (fun n => n.fd)).Nodup ∧ ∀ n ∈ demo_ep.rb_root, 0 ≤ n.fd) :=
  ⟨demo_reachable, registration_unique_nonneg 10 demo_ep demo_reachable⟩

/-- C9: on a valid instance, for a handle `h` registered with mask `m`, an observed mask
`e` with `(m AND e) != 0` and a ready queue `q` that is not at capacity,
`my_epoll_activate(h, e)` yields the queue `q ++ [{h, e}]`: one record is appended at
the tail, it carries `h` and `e` as passed, the earlier records keep content and order,
the ready count grows by one, and the registration list and the capacity are
unchanged. -/
theorem activate_appends_record (ep : my_epoll_t) (hq : QueueOk ep) (ht : TableOk ep)
    (h : Int) (m e : Nat) (hm : registered_mask ep h = some m) (hne : m &&& e ≠ 0)
    (hcap : ep.ready_count ≠ ep.max_ready) :
    ready_queue (my_epoll_activate ep h e) = ready_queue ep ++ [{ events := e, fd := h }] ∧
      (my_epoll_activate ep h e).ready_count = ep.ready_count + 1 ∧
      (my_epoll_activate ep h e).rb_root = ep.rb_root ∧
      (my_epoll_activate ep h e).max_ready = ep.max_ready := by
  have hlt : ep.ready_count < ep.max_ready := lt_of_le_of_ne hq.2.2 hcap
  refine ⟨activate_accept_queue ep hq ht h m e hm hne hlt, ?_, activate_rb_root ep h e,
    activate_max_ready ep h e⟩
  rw [activate_accept ep ht h m e hm hne hlt]

/-- Witness of C9 on the demo instance with two queued records: a third activation,
of handle 3 with OUT, lands behind them. -/
theorem activate_appends_record_witness :
    ready_queue (my_epoll_activate demo_ready_ep 3 MY_EPOLLOUT) =
        ready_queue demo_ready_ep ++ [{ events := MY_EPOLLOUT, fd := 3 }] ∧
      (my_epoll_activate demo_ready_ep 3 MY_EPOLLOUT).ready_count =
        demo_ready_ep.ready_count + 1 ∧
      (my_epoll_activate demo_ready_ep 3 MY_EPOLLOUT).rb_root = demo_ready_ep.rb_root ∧
      (my_epoll_activate demo_ready_ep 3 MY_EPOLLOUT).max_ready = demo_ready_ep.max_ready :=
  activate_appends_record demo_ready_ep ⟨by decide, by decide, by decide⟩
    ⟨by decide, by decide⟩ 3 MY_EPOLLOUT MY_EPOLLOUT (by decide) (by decide) (by decide)

/-- C10, as stated, fails: on the demo instance handle 1 is registered for IN only, the
queue is empty and below capacity, and `my_epoll_activate(1, IN|OUT)` queues a record
whose mask is IN|OUT (3), which is not the intersection IN (1) with the registered
mask. -/
theorem activate_record_not_intersection :
    registered_mask demo_ep 1 = some MY_EPOLLIN ∧
      MY_EPOLLIN &&& (MY_EPOLLIN ||| MY_EPOLLOUT) ≠ 0 ∧
      demo_ep.ready_count ≠ demo_ep.max_ready ∧
      ready_queue (my_epoll_activate demo_ep 1 (MY_EPOLLIN ||| MY_EPOLLOUT)) =
        [{ events := 3, fd := 1 }] ∧
      (3 : Nat) ≠ (MY_EPOLLIN ||| MY_EPOLLOUT) &&& MY_EPOLLIN := by
  decide

/-- C10, amended: on a valid instance, for a handle `h` registered with mask `m`, an
observed mask `e` with `(m AND e) != 0` and a queue below capacity, the record queued by
`my_epoll_activate(h, e)` carries the observed mask `e` exactly as passed; that mask is
the intersection `e AND m` exactly when `e` has no bit outside `m`, and it is not the
registered mask `m` unless `e = m`. -/
theorem activate_record_mask (ep : my_epoll_t) (hq : QueueOk ep) (ht : TableOk ep)
    (h : Int) (m e : Nat) (hm : registered_mask ep h = some m) (hne : m &&& e ≠ 0)
    (hcap : ep.ready_count ≠ ep.max_ready) :
    ∃ r, (ready_queue (my_epoll_activate ep h e)).getLast? = some r ∧
      r.fd = h ∧ r.events = e ∧
      (r.events = e &&& m ↔ ∀ i, e.testBit i = true → m.testBit i = true) ∧
      (r.events = m ↔ e = m) := by
  have hlt : ep.ready_count < ep.max_ready := lt_of_le_of_ne hq.2.2 hcap
  refine ⟨{ events := e, fd := h }, ?_, rfl, rfl, ?_, ?_⟩
  · rw [activate_accept_queue ep hq ht h m e hm hne hlt]
    simp
  · show e = e &&& m ↔ _
    constructor
    · intro heq i hi
      rw [heq, Nat.testBit_land] at hi
      simp only [Bool.and_eq_true] at hi
      exact hi.2
    · intro hall
      apply Nat.eq_of_testBit_eq
      intro i
      rw [Nat.testBit_land]
      cases hb : e.testBit i with
      | false => simp
      | true => simp [hall i hb]
  · show e = m ↔ e = m
    exact Iff.rfl

/-- Witness of C10 (amended) on the demo instance: handle 2 is registered for IN|OUT and
activated with OUT; the queued record carries OUT only. -/
theorem activate_record_mask_witness :
    ∃ r, (ready_queue (my_epoll_activate demo_ep 2 MY_EPOLLOUT)).getLast? = some r ∧
      r.fd = 2 ∧ r.events = MY_EPOLLOUT ∧
      (r.events = MY_EPOLLOUT &&& (MY_EPOLLIN ||| MY_EPOLLOUT) ↔
        ∀ i, MY_EPOLLOUT.testBit i = true → (MY_EPOLLIN ||| MY_EPOLLOUT).testBit i = true) ∧
      (r.events = (MY_EPOLLIN ||| MY_EPOLLOUT) ↔ MY_EPOLLOUT = (MY_EPOLLIN ||| MY_EPOLLOUT)) :=
  activate_record_mask demo_ep demo_QueueOk demo_TableOk 2 (MY_EPOLLIN ||| MY_EPOLLOUT)
    MY_EPOLLOUT (by decide) (by decide) (by decide)

/-! ## Further lemmas on Modify, Delete and repeated activation -/

theorem find_node_set_event_same (l : List rb_node_t) (fd : Int) (ev : my_epoll_event_t)
    (n : rb_node_t) (h : find_node l fd = some n) :
    find_node (set_event l fd ev) fd = some { n with event := ev } := by
  induction l with
  | nil => simp [find_node] at h
  | cons y rest ih =>
    unfold find_node at h
    unfold set_event
    by_cases hy : y.fd = fd
    · simp only [hy, if_true, Option.some.injEq] at h
      subst h
      simp [hy, find_node]
    · simp only [hy, if_false] at h
      simp [hy, find_node, ih h]

theorem find_node_set_event_ne (l : List rb_node_t) (fd g : Int) (ev : my_epoll_event_t)
    (hne : g ≠ fd) : find_node (set_event l fd ev) g = find_node l g := by
  induction l with
  | nil => simp [set_event]
  | cons y rest ih =>
    unfold set_event
    by_cases hy : y.fd = fd
    · have hyg : ¬ y.fd = g := fun h => hne (h.symm.trans hy)
      simp [hy, find_node, Ne.symm hne]
    · by_cases hyg : y.fd = g
      · simp [find_node, hyg, hne]
      · simp [hy, find_node, hyg, ih]

theorem unlink_node_append_new (l : List rb_node_t) (x : rb_node_t)
    (hnone : find_node l x.fd = none) : unlink_node (l ++ [x]) x.fd = l := by
  induction l with
  | nil => simp [unlink_node]
  | cons y rest ih =>
    unfold find_node at hnone
    by_cases hy : y.fd = x.fd
    · simp [hy] at hnone
    · simp only [hy, if_false] at hnone
      simp [unlink_node, hy, ih hnone]

theorem activate_unregistered (ep : my_epoll_t) (h : Int) (e : Nat)
    (hnone : find_node ep.rb_root h = none) : my_epoll_activate ep h e = ep := by
  unfold my_epoll_activate
  simp [hnone]

theorem activate_at_capacity (ep : my_epoll_t) (h : Int) (e : Nat)
    (hfull : ep.max_ready ≤ ep.ready_count) : my_epoll_activate ep h e = ep := by
  unfold my_epoll_activate
  simp [hfull]

theorem ctl_fail_unchanged (ep : my_epoll_t) (op fd : Int) (ev : my_epoll_event_t)
    (ok : Bool) (hret : (my_epoll_ctl ep op fd ev ok).2 = -1) :
    (my_epoll_ctl ep op fd ev ok).1 = ep := by
  unfold my_epoll_ctl at hret ⊢
  dsimp only at hret ⊢
  repeat' split
  all_goals first
    | rfl
    | (exfalso; simp_all)

/-- C11: for every instance, every operation tag (ADD, MOD, DEL, or any other value),
every event argument and every handle `h < 0`, `my_epoll_ctl` returns -1 and the whole
instance (registration list, ready array, ready count) is as before the call. -/
theorem ctl_negative_handle_rejected (ep : my_epoll_t) (op h : Int)
    (hneg : h < 0) (ev : my_epoll_event_t) (ok : Bool) :
    (my_epoll_ctl ep op h ev ok).2 = -1 ∧ (my_epoll_ctl ep op h ev ok).1 = ep ∧
      (my_epoll_ctl ep op h ev ok).1.rb_root = ep.rb_root ∧
      ready_queue (my_epoll_ctl ep op h ev ok).1 = ready_queue ep := by
  have hres : my_epoll_ctl ep op h ev ok = (ep, -1) := by
    unfold my_epoll_ctl
    simp [hneg]
  rw [hres]
  exact ⟨rfl, rfl, rfl, rfl⟩

/-- Witness of C11 on the demo instance with two queued records: an ADD of handle -1. -/
theorem ctl_negative_handle_rejected_witness :
    (my_epoll_ctl demo_ready_ep MY_EPOLL_CTL_ADD (-1) { events := 1, fd := -1 } true).2 = -1 ∧
      (my_epoll_ctl demo_ready_ep MY_EPOLL_CTL_ADD (-1) { events := 1, fd := -1 } true).1
        = demo_ready_ep ∧
      (my_epoll_ctl demo_ready_ep MY_EPOLL_CTL_ADD (-1) { events := 1, fd := -1 } true).1.rb_root
        = demo_ready_ep.rb_root ∧
      ready_queue
          (my_epoll_ctl demo_ready_ep MY_EPOLL_CTL_ADD (-1) { events := 1, fd := -1 } true).1
        = ready_queue demo_ready_ep :=
  ctl_negative_handle_rejected demo_ready_ep MY_EPOLL_CTL_ADD (-1) (by decide)
    { events := 1, fd := -1 } true

/-- C13: on every valid instance, `my_epoll_wait` returns -1 if and only if
`maxevents <= 0`, and for every `maxevents > 0` it returns a non-negative count, whatever
the timeout, the output buffer and the queue content are. -/
theorem wait_fails_iff_nonpositive (ep : my_epoll_t) (hq : QueueOk ep)
    (buf : List my_epoll_event_t) (maxevents timeout : Int) :
    ((my_epoll_wait ep buf maxevents timeout).2.2 = -1 ↔ maxevents ≤ 0) ∧
      (0 < maxevents → 0 ≤ (my_epoll_wait ep buf maxevents timeout).2.2) := by
  have hpos : 0 < maxevents → 0 ≤ (my_epoll_wait ep buf maxevents timeout).2.2 := by
    intro hk
    rw [(wait_copy ep hq buf maxevents timeout hk).1]
    have := hq.2.1
    omega
  refine ⟨⟨?_, ?_⟩, hpos⟩
  · intro hret
    by_contra hk
    have := hpos (by omega)
    omega
  · intro hk
    unfold my_epoll_wait
    simp [hk]

/-- Witness of C13 on the demo instance with two queued records, at `maxevents = 0`
(the call fails) and at `maxevents = 1` (the count is non-negative). -/
theorem wait_fails_iff_nonpositive_witness :
    ((my_epoll_wait demo_ready_ep [zero_event] 0 50).2.2 = -1 ↔ (0 : Int) ≤ 0) ∧
      0 ≤ (my_epoll_wait demo_ready_ep [zero_event] 1 50).2.2 :=
  ⟨(wait_fails_iff_nonpositive demo_ready_ep ⟨by decide, by decide, by decide⟩
      [zero_event] 0 50).1,
    (wait_fails_iff_nonpositive demo_ready_ep ⟨by decide, by decide, by decide⟩
      [zero_event] 1 50).2 (by decide)⟩

/-- C14: on every instance with a valid registration list in which handle `h` is
registered with some mask `m`, `my_epoll_ctl(MOD, h, ev)` returns 0 and afterwards the
mask registered for `h` is exactly the mask of `ev`, `h` occurs exactly once in the
list, and the mask registered for every other handle is as before. -/
theorem mod_replaces_mask (ep : my_epoll_t) (ht : TableOk ep) (h : Int) (m : Nat)
    (hm : registered_mask ep h = some m) (ev : my_epoll_event_t) (ok : Bool) :
    (my_epoll_ctl ep MY_EPOLL_CTL_MOD h ev ok).2 = 0 ∧
      registered_mask (my_epoll_ctl ep MY_EPOLL_CTL_MOD h ev ok).1 h = some ev.events ∧
      ((my_epoll_ctl ep MY_EPOLL_CTL_MOD h ev ok).1.rb_root.map (fun n => n.fd)).count h = 1 ∧
      (∀ g, g ≠ h →
        registered_mask (my_epoll_ctl ep MY_EPOLL_CTL_MOD h ev ok).1 g =
          registered_mask ep g) := by
  have h0 : 0 ≤ h := registered_nonneg ht hm
  unfold registered_mask at hm
  cases hf : find_node ep.rb_root h with
  | none => simp [hf] at hm
  | some node =>
    have hres : my_epoll_ctl ep MY_EPOLL_CTL_MOD h ev ok =
        ({ ep with rb_root := set_event ep.rb_root h ev }, 0) := by
      unfold my_epoll_ctl
      have hneg : ¬ h < 0 := by omega
      simp [hneg, hf, MY_EPOLL_CTL_MOD, MY_EPOLL_CTL_ADD]
    rw [hres]
    refine ⟨rfl, ?_, ?_, ?_⟩
    · show (find_node (set_event ep.rb_root h ev) h).map _ = _
      rw [find_node_set_event_same _ _ _ node hf]
      rfl
    · show ((set_event ep.rb_root h ev).map (fun n => n.fd)).count h = 1
      rw [map_fd_set_event]
      apply List.count_eq_one_of_mem ht.2
      rw [← find_node_isSome_iff, hf]
      rfl
    · intro g hg
      show (find_node (set_event ep.rb_root h ev) g).map _ = _
      rw [find_node_set_event_ne _ _ _ _ hg]
      rfl

/-- Witness of C14 on the demo instance: handle 2, registered for IN|OUT, is modified
to IN. -/
theorem mod_replaces_mask_witness :
    (my_epoll_ctl demo_ep MY_EPOLL_CTL_MOD 2 { events := MY_EPOLLIN, fd := 2 } true).2 = 0 ∧
      registered_mask
          (my_epoll_ctl demo_ep MY_EPOLL_CTL_MOD 2 { events := MY_EPOLLIN, fd := 2 } true).1 2
        = some MY_EPOLLIN ∧
      ((my_epoll_ctl demo_ep MY_EPOLL_CTL_MOD 2
          { events := MY_EPOLLIN, fd := 2 } true).1.rb_root.map (fun n => n.fd)).count 2 = 1 ∧
      (∀ g, g ≠ 2 →
        registered_mask
            (my_epoll_ctl demo_ep MY_EPOLL_CTL_MOD 2 { events := MY_EPOLLIN, fd := 2 } true).1 g
          = registered_mask demo_ep g) :=
  mod_replaces_mask demo_ep demo_TableOk 2 (MY_EPOLLIN ||| MY_EPOLLOUT) (by decide)
    { events := MY_EPOLLIN, fd := 2 } true

/-- C15: for every instance, every operation tag (ADD, MOD, DEL or any other), every
handle, event argument and allocation outcome, `my_epoll_ctl` leaves the ready array,
the ready count and hence the ready queue exactly as before the call, whether it
succeeds or not; in particular after a DEL of `h` the next `my_epoll_wait` returns the
same count and fills the output buffer with the same records as it would have before
the DEL. -/
theorem ctl_keeps_ready_queue (ep : my_epoll_t) (op h : Int) (ev : my_epoll_event_t)
    (ok : Bool) :
    (my_epoll_ctl ep op h ev ok).1.ready_list = ep.ready_list ∧
      (my_epoll_ctl ep op h ev ok).1.ready_count = ep.ready_count ∧
      ready_queue (my_epoll_ctl ep op h ev ok).1 = ready_queue ep ∧
      (∀ (buf : List my_epoll_event_t) (maxevents timeout : Int),
        (my_epoll_wait (my_epoll_ctl ep op h ev ok).1 buf maxevents timeout).2 =
          (my_epoll_wait ep buf maxevents timeout).2) := by
  have hl := ctl_ready_list ep op h ev ok
  have hc := ctl_ready_count ep op h ev ok
  refine ⟨hl, hc, ?_, ?_⟩
  · unfold ready_queue
    rw [hl, hc]
  · intro buf maxevents timeout
    unfold my_epoll_wait
    by_cases hk : maxevents ≤ 0
    · simp [hk]
    · simp only [hk, if_false, hl, hc]

theorem activate_repeat_spec (ep : my_epoll_t) (hq : QueueOk ep) (ht : TableOk ep)
    (hempty : ep.ready_count = 0) (h : Int) (m e : Nat)
    (hm : registered_mask ep h = some m) (hne : m &&& e ≠ 0) (k : Nat) :
    QueueOk (activate_repeat ep h e k) ∧
      (activate_repeat ep h e k).rb_root = ep.rb_root ∧
      (activate_repeat ep h e k).max_ready = ep.max_ready ∧
      (activate_repeat ep h e k).ready_count = min (k : Int) ep.max_ready ∧
      ready_queue (activate_repeat ep h e k) =
        List.replicate (min k ep.max_ready.toNat) { events := e, fd := h } := by
  induction k with
  | zero =>
    have h0 := hq.2.2
    refine ⟨hq, rfl, rfl, ?_, ?_⟩
    · show ep.ready_count = _
      rw [hempty]
      simp only [Nat.cast_zero]
      omega
    · show ready_queue ep = _
      simp [ready_queue, hempty]
  | succ k ih =>
    obtain ⟨hqk, hrk, hmk, hck, hqueue⟩ := ih
    have htk : TableOk (activate_repeat ep h e k) := by
      unfold TableOk
      rw [hrk]
      exact ht
    have hmaskk : registered_mask (activate_repeat ep h e k) h = some m := by
      unfold registered_mask
      rw [hrk]
      exact hm
    have hcap0 : 0 ≤ ep.max_ready := le_trans hq.2.1 hq.2.2
    show QueueOk (my_epoll_activate (activate_repeat ep h e k) h e) ∧
      (my_epoll_activate (activate_repeat ep h e k) h e).rb_root = ep.rb_root ∧
      (my_epoll_activate (activate_repeat ep h e k) h e).max_ready = ep.max_ready ∧
      (my_epoll_activate (activate_repeat ep h e k) h e).ready_count =
        min ((k + 1 : Nat) : Int) ep.max_ready ∧
      ready_queue (my_epoll_activate (activate_repeat ep h e k) h e) =
        List.replicate (min (k + 1) ep.max_ready.toNat) { events := e, fd := h }
    refine ⟨step_QueueOk _ (Call.activate h e) hqk, ?_, ?_, ?_, ?_⟩
    · rw [activate_rb_root, hrk]
    · rw [activate_max_ready, hmk]
    · by_cases hlt : (k : Int) < ep.max_ready
      · have hlt2 : (activate_repeat ep h e k).ready_count <
            (activate_repeat ep h e k).max_ready := by
          rw [hck, hmk]
          omega
        rw [activate_accept _ htk h m e hmaskk hne hlt2]
        show (activate_repeat ep h e k).ready_count + 1 = _
        rw [hck]
        push_cast
        omega
      · have hfull : (activate_repeat ep h e k).max_ready ≤
            (activate_repeat ep h e k).ready_count := by
          rw [hck, hmk]
          omega
        rw [activate_at_capacity _ h e hfull, hck]
        push_cast
        omega
    · by_cases hlt : (k : Int) < ep.max_ready
      · have hlt2 : (activate_repeat ep h e k).ready_count <
            (activate_repeat ep h e k).max_ready := by
          rw [hck, hmk]
          omega
        rw [activate_accept_queue _ hqk htk h m e hmaskk hne hlt2, hqueue]
        have h1 : min k ep.max_ready.toNat = k := by omega
        have h2 : min (k + 1) ep.max_ready.toNat = k + 1 := by omega
        rw [h1, h2, List.replicate_succ']
      · have hfull : (activate_repeat ep h e k).max_ready ≤
            (activate_repeat ep h e k).ready_count := by
          rw [hck, hmk]
          omega
        rw [activate_at_capacity _ h e hfull, hqueue]
        have h1 : min k ep.max_ready.toNat = ep.max_ready.toNat := by omega
        have h2 : min (k + 1) ep.max_ready.toNat = ep.max_ready.toNat := by omega
        rw [h1, h2]

/-- C16: on a valid instance of capacity `c > 0` with an empty ready queue, for a handle
`h` registered with mask `m`, an observed mask `e` with `(m AND e) != 0` and every
`k >= 0`, `k` consecutive calls `my_epoll_activate(h, e)` leave `min(k, c)` queued
records, each of them `{h, e}`, and a following `my_epoll_wait` with `maxevents >= c`
returns `min(k, c)` and leaves the queue empty. -/
theorem repeated_activation_saturates (ep : my_epoll_t) (hq : QueueOk ep) (ht : TableOk ep)
    (hempty : ep.ready_count = 0) (hc : 0 < ep.max_ready) (h : Int) (m e : Nat)
    (hm : registered_mask ep h = some m) (hne : m &&& e ≠ 0) (k : Nat)
    (buf : List my_epoll_event_t) (maxevents timeout : Int)
    (hk : ep.max_ready ≤ maxevents) :
    (activate_repeat ep h e k).ready_count = min (k : Int) ep.max_ready ∧
      ready_queue (activate_repeat ep h e k) =
        List.replicate (min k ep.max_ready.toNat) { events := e, fd := h } ∧
      (my_epoll_wait (activate_repeat ep h e k) buf maxevents timeout).2.2 =
        min (k : Int) ep.max_ready ∧
      (my_epoll_wait (activate_repeat ep h e k) buf maxevents timeout).1.ready_count = 0 ∧
      ready_queue (my_epoll_wait (activate_repeat ep h e k) buf maxevents timeout).1 = [] := by
  obtain ⟨hqk, _, _, hck, hqueue⟩ := activate_repeat_spec ep hq ht hempty h m e hm hne k
  have hpos : 0 < maxevents := by omega
  have hclear := wait_clear (activate_repeat ep h e k) buf maxevents timeout hpos
  refine ⟨hck, hqueue, ?_, hclear, ?_⟩
  · rw [(wait_copy _ hqk buf maxevents timeout hpos).1, hck]
    omega
  · simp [ready_queue, hclear]

/-- Witness of C16: capacity 2, handle 1 registered for IN, three activations with IN,
then a wait for 10 events. -/
theorem repeated_activation_saturates_witness :
    (activate_repeat demo_small_ep 1 MY_EPOLLIN 3).ready_count = min ((3 : Nat) : Int) 2 ∧
      ready_queue (activate_repeat demo_small_ep 1 MY_EPOLLIN 3) =
        List.replicate (min 3 2) { events := MY_EPOLLIN, fd := 1 } ∧
      (my_epoll_wait (activate_repeat demo_small_ep 1 MY_EPOLLIN 3)
          (List.replicate 10 zero_event) 10 0).2.2 = min ((3 : Nat) : Int) 2 ∧
      (my_epoll_wait (activate_repeat demo_small_ep 1 MY_EPOLLIN 3)
          (List.replicate 10 zero_event) 10 0).1.ready_count = 0 ∧
      ready_queue (my_epoll_wait (activate_repeat demo_small_ep 1 MY_EPOLLIN 3)
          (List.replicate 10 zero_event) 10 0).1 = [] :=
  repeated_activation_saturates demo_small_ep ⟨by decide, by decide, by decide⟩
    ⟨by decide, by decide⟩ rfl (by decide) 1 MY_EPOLLIN MY_EPOLLIN (by decide) (by decide) 3
    (List.replicate 10 zero_event) 10 0 (by decide)

/-- C17: on every instance with an empty ready queue, for every handle `h >= 0` with no
entry and all masks: `my_epoll_ctl(ADD, h, ev)` returns 0, the following
`my_epoll_ctl(DEL, h)` returns 0 and gives back the instance as it was before the Add,
so `h` is unregistered again, `my_epoll_activate(h, e)` changes nothing whatever `e`
is, and the following `my_epoll_wait` (with `maxevents > 0`) returns 0. -/
theorem add_del_activate_noop (ep : my_epoll_t) (hempty : ep.ready_count = 0) (h : Int)
    (h0 : 0 ≤ h) (hnone : registered_mask ep h = none) (ev : my_epoll_event_t) (e : Nat)
    (buf : List my_epoll_event_t) (maxevents timeout : Int) (hk : 0 < maxevents) :
    (my_epoll_ctl ep MY_EPOLL_CTL_ADD h ev true).2 = 0 ∧
      (my_epoll_ctl (my_epoll_ctl ep MY_EPOLL_CTL_ADD h ev true).1
        MY_EPOLL_CTL_DEL h zero_event true).2 = 0 ∧
      add_then_del ep h ev = ep ∧
      registered_mask (add_then_del ep h ev) h = none ∧
      my_epoll_activate (add_then_del ep h ev) h e = add_then_del ep h ev ∧
      (my_epoll_wait (my_epoll_activate (add_then_del ep h ev) h e)
        buf maxevents timeout).2.2 = 0 := by
  have hf : find_node ep.rb_root h = none := by
    unfold registered_mask at hnone
    cases hf : find_node ep.rb_root h with
    | none => rfl
    | some node => simp [hf] at hnone
  have hneg : ¬ h < 0 := by omega
  have hadd : my_epoll_ctl ep MY_EPOLL_CTL_ADD h ev true =
      ({ ep with rb_root := ep.rb_root ++ [{ fd := h, event := ev }] }, 0) := by
    unfold my_epoll_ctl
    simp [hneg, hf]
  have hfind : find_node (ep.rb_root ++ [{ fd := h, event := ev }]) h =
      some { fd := h, event := ev } := by
    rw [find_node_append, hf]
    simp
  have hdel : my_epoll_ctl { ep with rb_root := ep.rb_root ++ [{ fd := h, event := ev }] }
      MY_EPOLL_CTL_DEL h zero_event true = (ep, 0) := by
    unfold my_epoll_ctl
    have hun := unlink_node_append_new ep.rb_root { fd := h, event := ev } hf
    simp only at hun
    simp [hneg, hfind, hun, MY_EPOLL_CTL_DEL, MY_EPOLL_CTL_ADD, MY_EPOLL_CTL_MOD]
  have hback : add_then_del ep h ev = ep := by
    unfold add_then_del
    rw [hadd]
    simp only
    rw [hdel]
  rw [hback, activate_unregistered ep h e hf]
  refine ⟨by rw [hadd], ?_, rfl, hnone, rfl, wait_second_zero ep hempty buf maxevents timeout hk⟩
  rw [hadd]
  simp only
  rw [hdel]

/-- Witness of C17, the last scenario of `main`: handle 3 is added for OUT, deleted,
activated with OUT, and the wait for 10 events returns 0. -/
theorem add_del_activate_noop_witness :
    (my_epoll_ctl demo_two_ep MY_EPOLL_CTL_ADD 3 { events := MY_EPOLLOUT, fd := 3 } true).2 = 0 ∧
      (my_epoll_ctl
        (my_epoll_ctl demo_two_ep MY_EPOLL_CTL_ADD 3 { events := MY_EPOLLOUT, fd := 3 } true).1
        MY_EPOLL_CTL_DEL 3 zero_event true).2 = 0 ∧
      add_then_del demo_two_ep 3 { events := MY_EPOLLOUT, fd := 3 } = demo_two_ep ∧
      registered_mask (add_then_del demo_two_ep 3 { events := MY_EPOLLOUT, fd := 3 }) 3
        = none ∧
      my_epoll_activate (add_then_del demo_two_ep 3 { events := MY_EPOLLOUT, fd := 3 })
          3 MY_EPOLLOUT
        = add_then_del demo_two_ep 3 { events := MY_EPOLLOUT, fd := 3 } ∧
      (my_epoll_wait
        (my_epoll_activate (add_then_del demo_two_ep 3 { events := MY_EPOLLOUT, fd := 3 })
          3 MY_EPOLLOUT)
        (List.replicate 10 zero_event) 10 50).2.2 = 0 :=
  add_del_activate_noop demo_two_ep rfl 3 (by decide) (by decide)
    { events := MY_EPOLLOUT, fd := 3 } MY_EPOLLOUT (List.replicate 10 zero_event) 10 50
    (by decide)

/-- C20: on every valid instance a failing call changes nothing: whenever
`my_epoll_ctl` returns -1 the instance after the call is the instance before it, and
whenever `my_epoll_wait` returns -1 the instance and the output buffer are as before.
With a successful allocation `my_epoll_ctl` returns -1 exactly for a negative handle, an
ADD of a registered handle, a MOD or DEL of an unregistered handle, or an operation tag
other than 1, 2, 3; `my_epoll_wait` returns -1 exactly for `maxevents <= 0`. -/
theorem failing_calls_atomic (ep : my_epoll_t) (hq : QueueOk ep) :
    (∀ (op fd : Int) (ev : my_epoll_event_t) (ok : Bool),
        (my_epoll_ctl ep op fd ev ok).2 = -1 → (my_epoll_ctl ep op fd ev ok).1 = ep) ∧
      (∀ (op fd : Int) (ev : my_epoll_event_t),
        (my_epoll_ctl ep op fd ev true).2 = -1 ↔
          (fd < 0 ∨ (op = MY_EPOLL_CTL_ADD ∧ registered_mask ep fd ≠ none) ∨
            ((op = MY_EPOLL_CTL_MOD ∨ op = MY_EPOLL_CTL_DEL) ∧ registered_mask ep fd = none) ∨
            (op ≠ MY_EPOLL_CTL_ADD ∧ op ≠ MY_EPOLL_CTL_MOD ∧ op ≠ MY_EPOLL_CTL_DEL))) ∧
      (∀ (buf : List my_epoll_event_t) (maxevents timeout : Int),
        (my_epoll_wait ep buf maxevents timeout).2.2 = -1 →
          maxevents ≤ 0 ∧ (my_epoll_wait ep buf maxevents timeout).1 = ep ∧
            (my_epoll_wait ep buf maxevents timeout).2.1 = buf) := by
  refine ⟨fun op fd ev ok hret => ctl_fail_unchanged ep op fd ev ok hret, ?_, ?_⟩
  · intro op fd ev
    unfold my_epoll_ctl registered_mask
    by_cases hneg : fd < 0
    · simp [hneg]
    · by_cases h1 : op = MY_EPOLL_CTL_ADD
      · subst h1
        cases hf : find_node ep.rb_root fd <;>
          simp [hneg, hf, MY_EPOLL_CTL_ADD, MY_EPOLL_CTL_MOD, MY_EPOLL_CTL_DEL]
      · by_cases h2 : op = MY_EPOLL_CTL_MOD
        · subst h2
          cases hf : find_node ep.rb_root fd <;>
            simp [hneg, hf, MY_EPOLL_CTL_ADD, MY_EPOLL_CTL_MOD, MY_EPOLL_CTL_DEL]
        · by_cases h3 : op = MY_EPOLL_CTL_DEL
          · subst h3
            cases hf : find_node ep.rb_root fd <;>
              simp [hneg, hf, MY_EPOLL_CTL_ADD, MY_EPOLL_CTL_MOD, MY_EPOLL_CTL_DEL]
          · simp [hneg, h1, h2, h3]
  · intro buf maxevents timeout hret
    have hk : maxevents ≤ 0 := by
      by_contra hk
      have hpos : 0 < maxevents := by omega
      rw [(wait_copy ep hq buf maxevents timeout hpos).1] at hret
      have := hq.2.1
      omega
    refine ⟨hk, ?_, ?_⟩ <;>
    · unfold my_epoll_wait
      simp [hk]

/-- Witness of C20 on the demo instance with two queued records. -/
theorem failing_calls_atomic_witness :
    (my_epoll_ctl demo_ready_ep MY_EPOLL_CTL_ADD 2 { events := 1, fd := 2 } true).1
        = demo_ready_ep ∧
      (my_epoll_wait demo_ready_ep [zero_event] 0 0).1 = demo_ready_ep ∧
      (my_epoll_wait demo_ready_ep [zero_event] 0 0).2.1 = [zero_event] :=
  ⟨(failing_calls_atomic demo_ready_ep ⟨by decide, by decide, by decide⟩).1
      MY_EPOLL_CTL_ADD 2 { events := 1, fd := 2 } true (by decide),
    ((failing_calls_atomic demo_ready_ep ⟨by decide, by decide, by decide⟩).2.2
      [zero_event] 0 0 (by decide)).2⟩

/-- C12, as stated, fails: `my_epoll_create(0)` with a successful allocation returns an
instance, of capacity 0, and not a failure result. -/
theorem create_zero_not_rejected :
    (0 : Int) ≤ 0 ∧
      my_epoll_create 0 true =
        some { rb_root := [], ready_list := [], ready_count := 0, max_ready := 0 } ∧
      my_epoll_create 0 true ≠ none := by
  decide

/-- C12, amended: `my_epoll_create` does not look at `size`. For every `size >= 0` and a
successful allocation it returns an instance of capacity `size` with an empty
registration list and an empty ready queue (for `size = 0` an instance on which every
activation is dropped); it returns no instance only when the allocation of the
instance fails. -/
theorem create_returns_instance (size : Int) (hsize : 0 ≤ size) :
    (∃ ep, my_epoll_create size true = some ep ∧ ep.max_ready = size ∧ ep.rb_root = [] ∧
        ep.ready_count = 0 ∧ ready_queue ep = [] ∧ QueueOk ep ∧
        (size = 0 → ∀ (fd : Int) (e : Nat), my_epoll_activate ep fd e = ep)) ∧
      my_epoll_create size false = none ∧
      (∀ ok, my_epoll_create size ok = none ↔ ok = false) := by
  refine ⟨⟨_, rfl, rfl, rfl, rfl, ?_, ?_, ?_⟩, rfl, ?_⟩
  · simp [ready_queue]
  · exact create_QueueOk size hsize _ rfl
  · intro h0 fd e
    apply activate_at_capacity
    show size ≤ 0
    omega
  · intro ok
    cases ok <;> simp [my_epoll_create]

/-- Witness of C12 (amended) at `size = 0`. -/
theorem create_returns_instance_witness :
    (∃ ep, my_epoll_create 0 true = some ep ∧ ep.max_ready = 0 ∧ ep.rb_root = [] ∧
        ep.ready_count = 0 ∧ ready_queue ep = [] ∧ QueueOk ep ∧
        ((0 : Int) = 0 → ∀ (fd : Int) (e : Nat), my_epoll_activate ep fd e = ep)) ∧
      my_epoll_create 0 false = none ∧
      (∀ ok, my_epoll_create 0 ok = none ↔ ok = false) :=
  create_returns_instance 0 (by decide)

end Epoll

namespace Mmu

/-! ## Address splitting -/

theorem shiftRight_land (a b n : Nat) : (a &&& b) >>> n = (a >>> n) &&& (b >>> n) := by
  apply Nat.eq_of_testBit_eq
  intro i
  simp

theorem dte_index_eq (v : Nat) :
    (v &&& DTE_INDEX_MASK) >>> DTE_INDEX_SHIFT = v / 4194304 % 1024 := by
  rw [shiftRight_land, Nat.shiftRight_eq_div_pow]
  exact Nat.and_pow_two_sub_one_eq_mod _ 10

theorem pte_index_eq (v : Nat) :
    (v &&& PTE_INDEX_MASK) >>> PTE_INDEX_SHIFT = v / 4096 % 1024 := by
  rw [shiftRight_land, Nat.shiftRight_eq_div_pow]
  exact Nat.and_pow_two_sub_one_eq_mod _ 10

theorem offset_eq (v : Nat) : v &&& OFFSET_MASK = v % 4096 :=
  Nat.and_pow_two_sub_one_eq_mod _ 12

/-! ## The tables built by `init_page_directory(50)` -/

theorem init_50_ret (st : Machine) : (init_page_directory st 50).2 = 0 := by
  rfl

theorem init_50_CR3 (st : Machine) : (init_page_directory st 50).1.CR3 = 50 := by
  rfl

theorem init_50_dt (st : Machine) (i : Nat) (hi : i < 1024) :
    (init_page_directory st 50).1.physical_mem (0x32000 + 4 * i) =
      if i = 0 then 7340132 else 0 := by
  show write_attrs (write_pfn (write_attrs (write_pfn
      (memset (memset st.physical_mem 0x32000 4096) 0x64000 4096) 0x32000 0 100)
      0x32000 0 7) 0x64000 0 200) 0x64000 0 7 (0x32000 + 4 * i) = _
  by_cases h0 : i = 0
  · subst h0
    simp [write_attrs, write_pfn, memset, ENTRY_SIZE]
  · have h1 : ¬ (0x32000 + 4 * i = 0x64000) := by omega
    have h2 : ¬ (0x32000 + 4 * i = 0x32000) := by omega
    have h3 : ¬ (0x64000 ≤ 0x32000 + 4 * i) := by omega
    have h4 : 0x32000 + 4 * i < 0x32000 + 4096 := by omega
    simp [write_attrs, write_pfn, memset, ENTRY_SIZE, h0, h1, h2, h3, h4]

theorem init_50_pt (st : Machine) (j : Nat) (hj : j < 1024) :
    (init_page_directory st 50).1.physical_mem (0x64000 + 4 * j) =
      if j = 0 then 7340232 else 0 := by
  show write_attrs (write_pfn (write_attrs (write_pfn
      (memset (memset st.physical_mem 0x32000 4096) 0x64000 4096) 0x32000 0 100)
      0x32000 0 7) 0x64000 0 200) 0x64000 0 7 (0x64000 + 4 * j) = _
  by_cases h0 : j = 0
  · subst h0
    simp [write_attrs, write_pfn, memset, ENTRY_SIZE]
  · have h1 : ¬ (0x64000 + 4 * j = 0x64000) := by omega
    have h2 : ¬ (0x64000 + 4 * j = 0x32000) := by omega
    have h4 : 0x64000 + 4 * j < 0x64000 + 4096 := by omega
    simp [write_attrs, write_pfn, memset, ENTRY_SIZE, h0, h1, h2, h4]

theorem translate_of_tables (m : Machine) (hCR3 : m.CR3 = 50)
    (hDT : ∀ i, i < 1024 → m.physical_mem (0x32000 + 4 * i) = if i = 0 then 7340132 else 0)
    (hPT : ∀ j, j < 1024 → m.physical_mem (0x64000 + 4 * j) = if j = 0 then 7340232 else 0)
    (v : Nat) :
    mmu_translate m v =
      if v / 4194304 % 1024 ≠ 0 then (FAULT, Report.dte_fault (v / 4194304 % 1024))
      else if v / 4096 % 1024 ≠ 0 then (FAULT, Report.pte_fault (v / 4096 % 1024))
      else (0xC8000 + v % 4096, Report.translated) := by
  have hd : v / 4194304 % 1024 < 1024 := by omega
  have hp : v / 4096 % 1024 < 1024 := by omega
  have hdt : phys_to_virt (u32 (50 <<< PAGE_SHIFT)) = some 0x32000 := by decide
  unfold mmu_translate
  simp only [dte_index_eq, pte_index_eq, offset_eq, hCR3, hdt, read_DTE, read_PTE, ENTRY_SIZE]
  rw [hDT _ hd]
  by_cases h0 : v / 4194304 % 1024 = 0
  · have hpt : phys_to_virt (u32 ((7340132 % 2 ^ 20) <<< PAGE_SHIFT)) = some 0x64000 := by
      decide
    have hattr : (7340132 / 2 ^ 20 % 2 ^ 12) &&& PRESENT_BIT ≠ 0 := by decide
    simp only [h0, if_true, hattr, if_false, hpt, ne_eq, not_true_eq_false]
    rw [hPT _ hp]
    by_cases h1 : v / 4096 % 1024 = 0
    · have hattr2 : (7340232 / 2 ^ 20 % 2 ^ 12) &&& PRESENT_BIT ≠ 0 := by decide
      have hpfn2 : u32 ((7340232 % 2 ^ 20) <<< PAGE_SHIFT) = 0xC8000 := by decide
      simp only [h1, if_true, hattr2, if_false, hpfn2, not_true_eq_false]
      have hlt : v % 4096 < 4096 := by omega
      unfold u32
      rw [Nat.mod_eq_of_lt (by omega)]
    · have hz : (0 / 2 ^ 20 % 2 ^ 12) &&& PRESENT_BIT = 0 := by decide
      simp only [h1, if_false, hz, if_true, ne_eq, not_false_eq_true]
  · have hz : (0 / 2 ^ 20 % 2 ^ 12) &&& PRESENT_BIT = 0 := by decide
    simp only [h0, if_false, hz, if_true, ne_eq, not_false_eq_true]

theorem translate_after_init_50 (st : Machine) (v : Nat) :
    mmu_translate (init_page_directory st 50).1 v =
      if v / 4194304 % 1024 ≠ 0 then (FAULT, Report.dte_fault (v / 4194304 % 1024))
      else if v / 4096 % 1024 ≠ 0 then (FAULT, Report.pte_fault (v / 4096 % 1024))
      else (0xC8000 + v % 4096, Report.translated) :=
  translate_of_tables _ (init_50_CR3 st) (init_50_dt st) (init_50_pt st) v

/-! ## Claims on the page-table walker -/

theorem shiftRight_22_eq (v : Nat) : v >>> 22 = v / 4194304 := by
  rw [Nat.shiftRight_eq_div_pow]

theorem pte_field_eq (v : Nat) : (v >>> 12) &&& 0x3FF = v / 4096 % 1024 := by
  rw [Nat.shiftRight_eq_div_pow]
  exact Nat.and_pow_two_sub_one_eq_mod _ 10

/-- C18: after `init_page_directory(50)`, from any earlier content of memory, the call
returns 0 and for every virtual address `v < 4096` `mmu_translate(v)` completes the
translation and returns `0x000C8000 + v`, which is `200 << 12` plus the low 12 bits of
`v` unchanged, and is not the fault value `0xFFFFFFFF`. -/
theorem translate_mapped_page (st : Machine) (v : Nat) (hv : v < 4096) :
    (init_page_directory st 50).2 = 0 ∧
      mmu_translate (init_page_directory st 50).1 v = (0x000C8000 + v, Report.translated) ∧
      (mmu_translate (init_page_directory st 50).1 v).1 = (200 <<< 12) + (v &&& 0xFFF) ∧
      (mmu_translate (init_page_directory st 50).1 v).1 ≠ FAULT := by
  have hd : v / 4194304 % 1024 = 0 := by omega
  have hp : v / 4096 % 1024 = 0 := by omega
  have ho : v % 4096 = v := by omega
  have hlow : v &&& 0xFFF = v := by
    rw [show v &&& 0xFFF = v % 4096 from Nat.and_pow_two_sub_one_eq_mod _ 12]
    exact ho
  have hres : mmu_translate (init_page_directory st 50).1 v =
      (0x000C8000 + v, Report.translated) := by
    rw [translate_after_init_50]
    simp only [hd, hp, ho, ne_eq, not_true_eq_false, if_false]
  refine ⟨init_50_ret st, hres, ?_, ?_⟩
  · rw [hres, hlow]
    rfl
  · rw [hres]
    show 0x000C8000 + v ≠ 0xFFFFFFFF
    omega

/-- Witness of C18, test 1 of `main`: from the zeroed memory of program start,
`0x00000123` translates to `0x000c8123`. -/
theorem translate_mapped_page_witness :
    (init_page_directory boot 50).2 = 0 ∧
      mmu_translate (init_page_directory boot 50).1 0x00000123 =
        (0x000c8123, Report.translated) ∧
      (mmu_translate (init_page_directory boot 50).1 0x00000123).1 =
        (200 <<< 12) + (0x00000123 &&& 0xFFF) ∧
      (mmu_translate (init_page_directory boot 50).1 0x00000123).1 ≠ FAULT :=
  translate_mapped_page boot 0x00000123 (by decide)

/-- C19: after `init_page_directory(50)`, from any earlier content of memory, for every
32-bit virtual address `v >= 4096` `mmu_translate(v)` returns `0xFFFFFFFF`: with the
DTE fault message for index `v >> 22` when that index is non-zero, and otherwise with
the PTE fault message for index `(v >> 12) AND 0x3FF`, which is then non-zero. -/
theorem translate_unmapped_faults (st : Machine) (v : Nat) (hlo : 4096 ≤ v)
    (hhi : v < 2 ^ 32) :
    (mmu_translate (init_page_directory st 50).1 v).1 = 0xFFFFFFFF ∧
      (v >>> 22 ≠ 0 →
        mmu_translate (init_page_directory st 50).1 v =
          (FAULT, Report.dte_fault (v >>> 22))) ∧
      (v >>> 22 = 0 →
        (v >>> 12) &&& 0x3FF ≠ 0 ∧
          mmu_translate (init_page_directory st 50).1 v =
            (FAULT, Report.pte_fault ((v >>> 12) &&& 0x3FF))) := by
  have hhi2 : v < 4294967296 := hhi
  have hd : v / 4194304 % 1024 = v / 4194304 := by omega
  rw [shiftRight_22_eq, pte_field_eq, translate_after_init_50, hd]
  refine ⟨?_, ?_, ?_⟩
  · by_cases h0 : v / 4194304 = 0
    · have h1 : ¬ v / 4096 % 1024 = 0 := by omega
      simp only [h0, h1, ne_eq, not_true_eq_false, not_false_eq_true, if_true, if_false]
      rfl
    · simp only [h0, ne_eq, not_false_eq_true, if_true]
      rfl
  · intro h0
    simp only [h0, ne_eq, not_false_eq_true, if_true]
  · intro h0
    have h1 : ¬ v / 4096 % 1024 = 0 := by omega
    refine ⟨h1, ?_⟩
    simp only [h0, h1, ne_eq, not_true_eq_false, not_false_eq_true, if_true, if_false]

/-- Witness of C19, tests 2 and 3 of `main`: `0x000FF123` (DTE index 0, PTE index 255)
faults on the PTE and `0x00400123` (DTE index 1) faults on the DTE. -/
theorem translate_unmapped_faults_witness :
    mmu_translate (init_page_directory boot 50).1 0x000FF123 =
        (0xFFFFFFFF, Report.pte_fault 255) ∧
      mmu_translate (init_page_directory boot 50).1 0x00400123 =
        (0xFFFFFFFF, Report.dte_fault 1) :=
  ⟨((translate_unmapped_faults boot 0x000FF123 (by decide) (by decide)).2.2 (by decide)).2,
    (translate_unmapped_faults boot 0x00400123 (by decide) (by decide)).2.1 (by decide)⟩

end Mmu
